import Mathlib

/-!
# Carrot2 Clustering Workbench: the composition layer

A shallow embedding of `carrot2/apps/workbench/ui/WorkbenchApp.js`.

* The observable stores (`searchResultStore`, `clusterStore`,
  `workbenchSourceStore`, `uiStore`) are fields of one record `Stores`; a
  component is a function of the current `Stores`, an event handler is a
  function `Stores → Stores`.
* A rendered tree is an `Element`.  Components defined in `WorkbenchApp.js` are
  expanded (`Element.comp name output`); components imported from other modules
  (`Stats`, `Views`, `Loading`, the arrows, `WorkbenchSide`) are leaves that keep
  the props they are given.
* JavaScript numbers are IEEE-754 binary64 values (`Double`), with correctly
  rounded `*` and `/` and the `Number.prototype.toFixed` of ECMAScript.
* Modules of the application that the composition layer imports
  (`persistent-store.js`, `humanize.js`, the `getClusteredDocsRatio` getter of
  `services.js`, the view resolution of `Views.js`) are modelled from the
  specification; each such definition says so.  The static configuration
  (`config-sources.js`, `config-views.js`) is a parameter, `Env`.
-/

namespace Workbench

/-! ## JavaScript numbers -/

/-- The non-negative values of a JavaScript number: `finite m e` is the binary64
value `m * 2 ^ e`; lengths, ratios and percentages are never negative. -/
inductive Double where
  | finite (m : Nat) (e : Int)
  | infinity
  | nan
  deriving DecidableEq, Repr

/-- Auxiliary for `ilog2`: halve until the argument is below two. -/
def log2Fuel : Nat → Nat → Nat
  | 0, _ => 0
  | fuel + 1, n => if n < 2 then 0 else log2Fuel fuel (n / 2) + 1

/-- The position of the leading bit: `⌊log₂ n⌋` for `n > 0`. -/
def ilog2 (n : Nat) : Nat := log2Fuel n n

/-- The binary exponent of a positive fraction: `⌊log₂ (p / q)⌋`. -/
def floorLog2 (p q : Nat) : Int :=
  if q * 2 ^ ilog2 p ≤ p * 2 ^ ilog2 q then (ilog2 p : Int) - (ilog2 q : Int)
  else (ilog2 p : Int) - (ilog2 q : Int) - 1

/-- The integer nearest to `p / q`, the even one of two equally near. -/
def roundHalfEven (p q : Nat) : Nat :=
  if 2 * (p % q) < q then p / q
  else if q < 2 * (p % q) then p / q + 1
  else if (p / q) % 2 = 0 then p / q
  else p / q + 1

/-- The binary64 value nearest to `(p / q) * 2 ^ s` (round to nearest, ties to
even): 53 significant bits, the last place no finer than `2 ^ (-1074)`, and
infinity from `2 ^ 1024` on. -/
def Double.round (p q : Nat) (s : Int) : Double :=
  if p = 0 then .finite 0 0
  else
    let ulp : Int := max (floorLog2 p q + s - 52) (-1074)
    let k : Int := s - ulp
    let m : Nat :=
      if 0 ≤ k then roundHalfEven (p * 2 ^ k.toNat) q
      else roundHalfEven p (q * 2 ^ (-k).toNat)
    if 971 < ulp ∨ (ulp = 971 ∧ 2 ^ 53 ≤ m) then .infinity else .finite m ulp

/-- The number that an integer (a length, a literal) denotes. -/
def Double.ofNat (n : Nat) : Double := Double.round n 1 0

/-- The product `a * b` of JavaScript. -/
def Double.mul : Double → Double → Double
  | .finite m1 e1, .finite m2 e2 => Double.round (m1 * m2) 1 (e1 + e2)
  | .finite m _, .infinity => if m = 0 then .nan else .infinity
  | .infinity, .finite m _ => if m = 0 then .nan else .infinity
  | .infinity, .infinity => .infinity
  | _, _ => .nan

/-- The quotient `a / b` of JavaScript. -/
def Double.div : Double → Double → Double
  | .finite m1 e1, .finite m2 e2 =>
    if m2 = 0 then (if m1 = 0 then .nan else .infinity)
    else Double.round m1 m2 (e1 - e2)
  | .finite _ _, .infinity => .finite 0 0
  | .infinity, .finite _ _ => .infinity
  | _, _ => .nan

/-- The test `x ≥ 10 ^ 21` of `toFixed`, for `x = m * 2 ^ e`. -/
def geTenPow21 (m : Nat) (e : Int) : Bool :=
  if 0 ≤ e then decide (10 ^ 21 ≤ m * 2 ^ e.toNat)
  else decide (10 ^ 21 * 2 ^ (-e).toNat ≤ m)

/-- The integer `n` for which `n / 10 ^ f - x` is as close to zero as possible,
the larger one if there are two, for `x = m * 2 ^ e`: `⌊x * 10 ^ f + 1/2⌋`. -/
def nearestScaled (m : Nat) (e : Int) (f : Nat) : Nat :=
  if 0 ≤ e then m * 2 ^ e.toNat * 10 ^ f
  else (2 * m * 10 ^ f + 2 ^ (-e).toNat) / (2 * 2 ^ (-e).toNat)

/-- The method `Number.prototype.toFixed(f)` of ECMAScript on a non-negative
number.  `numberToString` is `Number::toString`, which `toFixed` falls back to
from `10 ^ 21` on. -/
def Double.toFixed (numberToString : Double → String) (x : Double) (f : Nat) : String :=
  match x with
  | .nan => "NaN"
  | .infinity => "Infinity"
  | .finite m e =>
    if geTenPow21 m e then numberToString x
    else
      let digits := Nat.toDigits 10 (nearestScaled m e f)
      if f = 0 then String.mk digits
      else
        let padded := List.replicate (f + 1 - digits.length) '0' ++ digits
        String.mk (padded.take (padded.length - f) ++ '.' :: padded.drop (padded.length - f))

/-! ## The stores -/

/-- A document of the search result, known by its id. -/
structure Document where
  id : Nat
  deriving DecidableEq, Repr

/-- A cluster: its labels and the ids of the documents it holds. -/
structure Cluster where
  labels : List String
  documents : List Nat
  deriving DecidableEq, Repr

/-- The value of `searchResultStore.searchResult`. -/
structure SearchResult where
  documents : List Document
  deriving DecidableEq, Repr

/-- The store `searchResultStore` of `store/services.js`. -/
structure SearchResultStore where
  searchResult : SearchResult
  initial : Bool
  loading : Bool
  deriving DecidableEq, Repr

/-- The value of `clusterStore.serviceInfo`, when there is one. -/
structure ServiceInfo where
  clusteringTimeMillis : Option Nat
  deriving DecidableEq, Repr

/-- The store `clusterStore` of `store/services.js`. -/
structure ClusterStore where
  clusters : List Cluster
  serviceInfo : Option ServiceInfo
  loading : Bool
  deriving DecidableEq, Repr

/-- The store `workbenchSourceStore`. -/
structure WorkbenchSourceStore where
  source : String
  deriving DecidableEq, Repr

/-- A preference object: the fields of a persisted state object, by key. -/
abbrev PrefObject := List (String × String)

/-- The durable content of the Preference Store: one object per namespace. -/
abbrev Storage := List (String × PrefObject)

/-- The assignment `obj[k] = v` on a keyed collection: an existing key keeps its
place, a new one is added at the end. -/
def assocSet {β : Type} : List (String × β) → String → β → List (String × β)
  | [], k, v => [(k, v)]
  | (k', v') :: rest, k, v =>
    if k' = k then (k, v) :: rest else (k', v') :: assocSet rest k v

/-- The state of the application that the composition layer reads and writes. -/
structure Stores where
  searchResultStore : SearchResultStore
  clusterStore : ClusterStore
  workbenchSourceStore : WorkbenchSourceStore
  uiStore : PrefObject
  storage : Storage
  deriving DecidableEq, Repr

/-- The namespace of the preferences of this layer. -/
def uiNamespace : String := "workbench:ui"

/-- The defaults that `WorkbenchApp.js` passes to `persistentStore`. -/
def uiDefaults : PrefObject := [("clusterView", "folders")]

/-- Modelled from the spec: `persistentStore` of `persistent-store.js`, the
`get(namespace, defaults)` of the Preference Store.  It returns the persisted
state of the namespace merged over the defaults, and creates the persisted entry
with the defaults when there is none. -/
def persistentStore (storage : Storage) (ns : String) (defaults : PrefObject) :
    PrefObject × Storage :=
  match storage.lookup ns with
  | some persisted => (persisted.foldl (fun o kv => assocSet o kv.1 kv.2) defaults, storage)
  | none => (defaults, assocSet storage ns defaults)

/-- The module-level `const uiStore = persistentStore("workbench:ui", ...)`. -/
def uiStore (st : Stores) : Stores :=
  { st with
    uiStore := (persistentStore st.storage uiNamespace uiDefaults).1
    storage := (persistentStore st.storage uiNamespace uiDefaults).2 }

/-- Modelled from the spec: a field assignment on the object that
`persistentStore` returned, here `uiStore[k] = v`; it updates the object and
writes it through to the Preference Store under its namespace. -/
def assignUiStore (k v : String) (st : Stores) : Stores :=
  { st with
    uiStore := assocSet st.uiStore k v
    storage := assocSet st.storage uiNamespace (assocSet st.uiStore k v) }

/-- Modelled from the spec: the count `C` that `getClusteredDocsRatio` divides by
the number of documents: the documents of the search result that occur in some
cluster. -/
def clusteredDocsCount (st : Stores) : Nat :=
  (st.searchResultStore.searchResult.documents.filter
    (fun d => st.clusterStore.clusters.any (fun c => c.documents.contains d.id))).length

/-- Modelled from the spec: the ratio `C / N` of `getClusteredDocsRatio`, for `C`
clustered documents out of `N`, defined as 0 when there is no document. -/
def clusteredDocsRatio (c n : Nat) : Double :=
  if n = 0 then Double.ofNat 0 else Double.div (Double.ofNat c) (Double.ofNat n)

/-- Modelled from the spec: the derived getter
`clusterStore.getClusteredDocsRatio()` of `services.js`. -/
def getClusteredDocsRatio (st : Stores) : Double :=
  clusteredDocsRatio (clusteredDocsCount st)
    st.searchResultStore.searchResult.documents.length

/-! ## Static configuration and rendered trees -/

/-- A descriptor of the Source Registry (`config-sources.js`); `ρ` is the type of
the renderables that other modules produce. -/
structure Source (ρ : Type) where
  label : String
  createIntroHelp : Option (Unit → ρ)

/-- A descriptor of a View Registry (`config-views.js`). -/
structure ViewDescriptor (ρ : Type) where
  id : String
  render : Stores → ρ

/-- What `WorkbenchApp.js` imports and does not define. -/
structure Env (ρ : Type) where
  sources : List (String × Source ρ)
  clusterViews : List (ViewDescriptor ρ)
  resultsViews : List (ViewDescriptor ρ)
  humanizeMillis : Nat → String
  numberToString : Double → String

/-- Modelled from the spec: `humanizeDuration` of `humanize.js`: a human-readable
duration, and the placeholder when `clusteringTimeMillis` is absent. -/
def humanizeDuration {ρ : Type} (env : Env ρ) : Option Nat → String
  | none => "—"
  | some ms => env.humanizeMillis ms

/-- The value of a stat: a number or a string. -/
inductive StatValue where
  | num (n : Nat)
  | str (s : String)
  deriving DecidableEq, Repr

/-- An entry of the `stats` array given to `Stats`. -/
structure Stat where
  id : String
  value : StatValue
  label : String
  deriving DecidableEq, Repr

/-- The error with which a component function throws. -/
inductive RenderError where
  | typeError (message : String)
  deriving DecidableEq, Repr

/-- The props that `WorkbenchMain` gives to a `Views` element. -/
structure ViewsProps (ρ : Type) where
  activeView : Option String
  views : List (ViewDescriptor ρ)
  onViewChange : String → Stores → Stores
  source : Option (Source ρ)

/-- A rendered tree.  Attributes other than `className` are left out. -/
inductive Element (ρ : Type) where
  | text (s : String)
  | foreign (r : ρ)
  | host (tag : String) (className : Option String) (children : List (Element ρ))
  | comp (name : String) (output : Element ρ)
  | failed (name : String) (err : RenderError)
  | imported (name : String)
  | stats (stats : List Stat)
  | views (props : ViewsProps ρ) (children : List (Element ρ))
  | loading (isLoading : Stores → Bool)

/-- A child component in the tree: React calls the component function when it
renders the parent; a function that throws is recorded with its error. -/
def mount {ρ : Type} (name : String) : Except RenderError (Element ρ) → Element ρ
  | .ok out => .comp name out
  | .error err => .failed name err

mutual
/-- The components of a tree and its host elements that carry a class, in
document order. -/
def Element.outline {ρ : Type} : Element ρ → List String
  | .text _ => []
  | .foreign _ => []
  | .host tag (some cls) cs => (tag ++ "." ++ cls) :: Element.outlineList cs
  | .host _ none cs => Element.outlineList cs
  | .comp name out => name :: Element.outline out
  | .failed name _ => [name]
  | .imported name => [name]
  | .stats _ => ["Stats"]
  | .views _ cs => "Views" :: Element.outlineList cs
  | .loading _ => ["Loading"]
/-- The outline of a list of children. -/
def Element.outlineList {ρ : Type} : List (Element ρ) → List String
  | [] => []
  | c :: cs => Element.outline c ++ Element.outlineList cs
end

mutual
/-- The error with which rendering the tree as a whole aborts: that of the first
component that threw, if any did. -/
def Element.renderError {ρ : Type} : Element ρ → Option RenderError
  | .host _ _ cs => Element.renderErrorList cs
  | .comp _ out => Element.renderError out
  | .failed _ err => some err
  | .views _ cs => Element.renderErrorList cs
  | _ => none
/-- The first error among a list of children. -/
def Element.renderErrorList {ρ : Type} : List (Element ρ) → Option RenderError
  | [] => none
  | c :: cs => (Element.renderError c).orElse (fun _ => Element.renderErrorList cs)
end

mutual
/-- The `stats` arrays of the `Stats` elements of a tree, in document order. -/
def Element.statsOf {ρ : Type} : Element ρ → List (List Stat)
  | .host _ _ cs => Element.statsOfList cs
  | .comp _ out => Element.statsOf out
  | .stats s => [s]
  | .views _ cs => Element.statsOfList cs
  | _ => []
/-- The `stats` arrays of a list of children. -/
def Element.statsOfList {ρ : Type} : List (Element ρ) → List (List Stat)
  | [] => []
  | c :: cs => Element.statsOf c ++ Element.statsOfList cs
end

/-- The `Views` elements among the given children, each with its own children. -/
def viewsAmong {ρ : Type} : List (Element ρ) → List (ViewsProps ρ × List (Element ρ))
  | [] => []
  | .views p cs :: rest => (p, cs) :: viewsAmong rest
  | _ :: rest => viewsAmong rest

mutual
/-- The `Views` elements that are children of a host element of class `cls`: the
surface that the source marks with this class. -/
def Element.surface {ρ : Type} (cls : String) :
    Element ρ → List (ViewsProps ρ × List (Element ρ))
  | .host _ c cs =>
    (if c = some cls then viewsAmong cs else []) ++ Element.surfaceList cls cs
  | .comp _ out => Element.surface cls out
  | .views _ cs => Element.surfaceList cls cs
  | _ => []
/-- The surfaces of class `cls` in a list of children. -/
def Element.surfaceList {ρ : Type} (cls : String) :
    List (Element ρ) → List (ViewsProps ρ × List (Element ρ))
  | [] => []
  | c :: cs => Element.surface cls c ++ Element.surfaceList cls cs
end

/-- The predicates of the `Loading` elements among the given children. -/
def loadingAmong {ρ : Type} : List (Element ρ) → List (Stores → Bool)
  | [] => []
  | .loading p :: rest => p :: loadingAmong rest
  | _ :: rest => loadingAmong rest

mutual
/-- The text that a tree shows, in document order. -/
def Element.texts {ρ : Type} : Element ρ → List String
  | .text s => [s]
  | .host _ _ cs => Element.textsList cs
  | .comp _ out => Element.texts out
  | .views _ cs => Element.textsList cs
  | _ => []
/-- The text of a list of children. -/
def Element.textsList {ρ : Type} : List (Element ρ) → List String
  | [] => []
  | c :: cs => Element.texts c ++ Element.textsList cs
end

mutual
/-- The renderables of other modules that a tree embeds, in document order. -/
def Element.foreigns {ρ : Type} : Element ρ → List ρ
  | .foreign r => [r]
  | .host _ _ cs => Element.foreignsList cs
  | .comp _ out => Element.foreigns out
  | .views _ cs => Element.foreignsList cs
  | _ => []
/-- The foreign renderables of a list of children. -/
def Element.foreignsList {ρ : Type} : List (Element ρ) → List ρ
  | [] => []
  | c :: cs => Element.foreigns c ++ Element.foreignsList cs
end

mutual
/-- The content that a tree shows, in document order: its text and the
renderables of other modules that it embeds, each in its place. -/
def Element.content {ρ : Type} : Element ρ → List (String ⊕ ρ)
  | .text s => [.inl s]
  | .foreign r => [.inr r]
  | .host _ _ cs => Element.contentList cs
  | .comp _ out => Element.content out
  | .views _ cs => Element.contentList cs
  | _ => []
/-- The content of a list of children. -/
def Element.contentList {ρ : Type} : List (Element ρ) → List (String ⊕ ρ)
  | [] => []
  | c :: cs => Element.content c ++ Element.contentList cs
end

/-- The children of the root element of a tree. -/
def Element.children {ρ : Type} : Element ρ → List (Element ρ)
  | .host _ _ cs => cs
  | .views _ cs => cs
  | _ => []

/-- The value of the stat with the given id in a `stats` array. -/
def statValue (id : String) (stats : List Stat) : Option StatValue :=
  (stats.find? (fun s => s.id == id)).map (fun s => s.value)

/-! ## The components of `WorkbenchApp.js` -/

/-- The value of the "clustered-docs" stat:
`(100.0 * ratio).toFixed(1) + "%"`. -/
def clusteredDocsValue {ρ : Type} (env : Env ρ) (ratio : Double) : String :=
  Double.toFixed env.numberToString (Double.mul (Double.ofNat 100) ratio) 1 ++ "%"

/-- The `stats` array that `ResultStats` builds. -/
def resultStats {ρ : Type} (env : Env ρ) (st : Stores) : List Stat :=
  [ { id := "result-count"
      value := .num st.searchResultStore.searchResult.documents.length
      label := "results" },
    { id := "cluster-count"
      value := .num st.clusterStore.clusters.length
      label := "clusters" },
    { id := "clustered-docs"
      value := .str (clusteredDocsValue env (getClusteredDocsRatio st))
      label := "clustered docs" },
    { id := "processing-time"
      value := .str (humanizeDuration env
        (st.clusterStore.serviceInfo.bind (fun info => info.clusteringTimeMillis)))
      label := "clustering time" } ]

/-- The component `ResultStats`. -/
def ResultStats {ρ : Type} (env : Env ρ) (st : Stores) : Element ρ :=
  .host "div" (some "stats") [.stats (resultStats env st)]

/-- The component `DottedStraightArrow`: an `svg` of seven paths. -/
def DottedStraightArrow {ρ : Type} : Element ρ :=
  .host "svg" (some "DottedArrow DottedArrowStraight")
    (List.replicate 7 (.host "path" none []))

/-- The component `SourceConfigurationStep`.  Reading `createIntroHelp` of a
source that the registry does not hold throws a `TypeError`. -/
def SourceConfigurationStep {ρ : Type} (env : Env ρ) (st : Stores) :
    Except RenderError (Element ρ) :=
  match env.sources.lookup st.workbenchSourceStore.source with
  | none => .error (.typeError "Cannot read properties of undefined")
  | some source =>
    let help : Option ρ := source.createIntroHelp.map (fun create => create ())
    .ok (.host "li" (some "SourceConfiguration")
      ([ .imported "DottedAngledArrow",
         .host "h3" none
           [.text "Configure ", .host "strong" none [.text source.label],
            .text " data source"] ]
        ++ (help.map Element.foreign).toList))

/-- The component `WorkbenchIntroSteps`. -/
def WorkbenchIntroSteps {ρ : Type} (env : Env ρ) (st : Stores) : Element ρ :=
  .host "div" (some "WorkbenchIntroSteps")
    [ .host "ol" none
        [ .host "li" (some "SourceAlgorithmChoice")
            [ .comp "DottedStraightArrow" DottedStraightArrow,
              .host "h3" none [.text "Choose data source and clustering algorithm"] ],
          mount "SourceConfigurationStep" (SourceConfigurationStep env st),
          .host "li" (some "ButtonPress")
            [ .imported "DottedArrowCurly",
              .host "h3" none
                [.text "Press the ", .host "strong" none [.text "Cluster"],
                 .text " button"] ] ] ]

/-- The component `WorkbenchIntro`. -/
def WorkbenchIntro {ρ : Type} (env : Env ρ) (st : Stores) : Element ρ :=
  .host "div" (some "WorkbenchMain WorkbenchIntro")
    [ .comp "WorkbenchIntroSteps" (WorkbenchIntroSteps env st),
      .host "div" (some "WorkbenchIntroWelcome")
        [ .host "h2" none
            [.text "This is Carrot", .host "sup" none [.text "2"],
             .text " Clustering Workbench"],
          .host "ul" none
            [ .host "li" none [.text "clustering data from files, Solr, Elasticsearch"],
              .host "li" none [.text "experimenting with clustering parameters"],
              .host "li" none [.text "exporting results"] ] ] ]

/-- The props of the `Views` element of the cluster-results surface. -/
def clusterViewsProps {ρ : Type} (env : Env ρ) (st : Stores) : ViewsProps ρ :=
  { activeView := st.uiStore.lookup "clusterView"
    views := env.clusterViews
    onViewChange := fun newView => assignUiStore "clusterView" newView
    source := none }

/-- The props of the `Views` element of the document-results surface. -/
def resultsViewsProps {ρ : Type} (env : Env ρ) (st : Stores) : ViewsProps ρ :=
  { activeView := some "list"
    views := env.resultsViews
    onViewChange := fun _ s => s
    source := env.sources.lookup st.workbenchSourceStore.source }

/-- The component `WorkbenchMain`. -/
def WorkbenchMain {ρ : Type} (env : Env ρ) (st : Stores) : Element ρ :=
  if st.searchResultStore.initial then .comp "WorkbenchIntro" (WorkbenchIntro env st)
  else
    .host "div" (some "WorkbenchMain")
      [ .comp "ResultStats" (ResultStats env st),
        .host "div" (some "clusters")
          [.views (clusterViewsProps env st) [.loading (fun s => s.clusterStore.loading)]],
        .host "div" (some "docs")
          [.views (resultsViewsProps env st)
            [.loading (fun s => s.searchResultStore.loading)]] ]

/-- The component `WorkbenchApp`. -/
def WorkbenchApp {ρ : Type} (env : Env ρ) (st : Stores) : Element ρ :=
  .host "div" (some "WorkbenchApp")
    [.imported "WorkbenchSide", .comp "WorkbenchMain" (WorkbenchMain env st)]

/-- Modelled from the spec: `resolve` of the View Registry, which `Views.js`
applies to the `activeView` it is given: the descriptor registered under the id,
else the first descriptor of the registry. -/
def resolve {ρ : Type} (views : List (ViewDescriptor ρ)) (viewId : Option String) :
    Option (ViewDescriptor ρ) :=
  match views.find? (fun d => decide (some d.id = viewId)) with
  | some d => some d
  | none => views.head?

/-! ## Concrete configurations and states -/

/-- A configuration with two sources and three cluster views. -/
def demoEnv : Env String :=
  { sources :=
      [ ("web", { label := "Web", createIntroHelp := none }),
        ("solr", { label := "Solr", createIntroHelp := some (fun _ => "solr-help") }) ]
    clusterViews :=
      [ { id := "folders", render := fun _ => "folders-view" },
        { id := "treemap", render := fun _ => "treemap-view" },
        { id := "pie-chart", render := fun _ => "pie-chart-view" } ]
    resultsViews := [ { id := "list", render := fun _ => "list-view" } ]
    humanizeMillis := fun ms => toString ms ++ "ms"
    numberToString := fun _ => "1e+21" }

/-- A state before the first query, with data left in the other stores. -/
def introStores : Stores :=
  { searchResultStore :=
      { searchResult := { documents := [⟨0⟩, ⟨1⟩, ⟨2⟩, ⟨3⟩, ⟨4⟩] }
        initial := true
        loading := true }
    clusterStore :=
      { clusters := [⟨["a"], [0, 1]⟩, ⟨["b"], [1, 2, 3]⟩]
        serviceInfo := some ⟨some 1234⟩
        loading := true }
    workbenchSourceStore := ⟨"web"⟩
    uiStore := [("clusterView", "treemap")]
    storage := [("workbench:ui", [("clusterView", "treemap")])] }

/-- A state after a query, while the clusters are still loading. -/
def resultsStores : Stores :=
  { introStores with
    searchResultStore := { introStores.searchResultStore with initial := false, loading := false } }

/-- A state whose selected source is not a key of the registry of `demoEnv`. -/
def staleSourceStores : Stores :=
  { introStores with workbenchSourceStore := ⟨"etools"⟩ }

/-- A state before the first query whose selected source has a `createIntroHelp`. -/
def solrStores : Stores :=
  { introStores with workbenchSourceStore := ⟨"solr"⟩ }

/-- A state after a query in which the service reported no clustering time. -/
def untimedStores : Stores :=
  { resultsStores with
    clusterStore := { resultsStores.clusterStore with serviceInfo := some ⟨none⟩ } }

/-- A state at start-up whose Preference Store has no entry yet. -/
def freshStores : Stores :=
  { introStores with uiStore := [], storage := [] }

/-! ## Observations and events used in the statements -/

/-- The outline of the intro up to the source-configuration step. -/
def introOutlineHead : List String :=
  [ "WorkbenchIntro", "div.WorkbenchMain WorkbenchIntro", "WorkbenchIntroSteps",
    "div.WorkbenchIntroSteps", "li.SourceAlgorithmChoice", "DottedStraightArrow",
    "svg.DottedArrow DottedArrowStraight", "SourceConfigurationStep" ]

/-- The outline of the intro after the source-configuration step. -/
def introOutlineTail : List String :=
  ["li.ButtonPress", "DottedArrowCurly", "div.WorkbenchIntroWelcome"]

/-- The outlines of the three regions of results mode. -/
def resultsRegions : List (List String) :=
  [ ["ResultStats", "div.stats", "Stats"],
    ["div.clusters", "Views", "Loading"],
    ["div.docs", "Views", "Loading"] ]

/-- The user picks the view `id` in the switcher of the cluster-results surface
of the rendered tree: its `onViewChange` handler runs. -/
def switchClusterView {ρ : Type} (env : Env ρ) (id : String) (st : Stores) : Stores :=
  ((WorkbenchMain env st).surface "clusters").foldl (fun s v => v.1.onViewChange id s) st

/-- A sequence of view switches, each on the tree rendered from the state that
the one before left. -/
def switchClusterViews {ρ : Type} (env : Env ρ) (ids : List String) (st : Stores) : Stores :=
  ids.foldl (fun s id => switchClusterView env id s) st

/-- A state in results mode whose persisted cluster view is no longer registered. -/
def staleViewStores : Stores :=
  { resultsStores with uiStore := [("clusterView", "sunburst")] }

/-! ## Lemmas on keyed collections -/

theorem lookup_assocSet_self {β : Type} (l : List (String × β)) (k : String) (v : β) :
    (assocSet l k v).lookup k = some v := by
  induction l with
  | nil => simp [assocSet, List.lookup]
  | cons kv rest ih =>
    obtain ⟨k', v'⟩ := kv
    by_cases hk : k' = k
    · simp [assocSet, hk, List.lookup]
    · have hk' : (k == k') = false := by
        simpa using fun h : k = k' => hk h.symm
      simp [assocSet, hk, List.lookup, hk', ih]

theorem lookup_assocSet_ne {β : Type} (l : List (String × β)) (k k' : String) (v : β)
    (hne : k' ≠ k) : (assocSet l k v).lookup k' = l.lookup k' := by
  induction l with
  | nil =>
    have hk : (k' == k) = false := by simpa using hne
    simp [assocSet, List.lookup, hk]
  | cons kv rest ih =>
    obtain ⟨k₀, v₀⟩ := kv
    by_cases hk : k₀ = k
    · subst hk
      have hk' : (k' == k₀) = false := by simpa using hne
      simp [assocSet, List.lookup, hk']
    · simp only [assocSet, hk, if_false, List.lookup]
      rw [ih]

/-! ## Intro mode and results mode -/

theorem outline_sourceStep {ρ : Type} (env : Env ρ) (st : Stores) :
    (mount "SourceConfigurationStep" (SourceConfigurationStep env st)).outline =
      "SourceConfigurationStep" ::
        (if (env.sources.lookup st.workbenchSourceStore.source).isSome
          then ["li.SourceConfiguration", "DottedAngledArrow"] else []) := by
  unfold SourceConfigurationStep
  cases hs : env.sources.lookup st.workbenchSourceStore.source with
  | none => simp [mount, Element.outline]
  | some source =>
    cases hh : source.createIntroHelp <;>
      simp [mount, Element.outline, Element.outlineList, hh]

theorem outline_intro {ρ : Type} (env : Env ρ) (st : Stores) :
    (Element.comp "WorkbenchIntro" (WorkbenchIntro env st)).outline =
      introOutlineHead ++
        (if (env.sources.lookup st.workbenchSourceStore.source).isSome
          then ["li.SourceConfiguration", "DottedAngledArrow"] else []) ++
        introOutlineTail := by
  have h := outline_sourceStep env st
  simp only [WorkbenchIntro, WorkbenchIntroSteps, Element.outline, Element.outlineList,
    DottedStraightArrow, h, introOutlineHead, introOutlineTail]
  simp [List.replicate, Element.outline, Element.outlineList]

theorem renderError_intro {ρ : Type} (env : Env ρ) (st : Stores)
    (hs : (env.sources.lookup st.workbenchSourceStore.source).isSome = true) :
    (Element.comp "WorkbenchIntro" (WorkbenchIntro env st)).renderError = none := by
  obtain ⟨source, hsrc⟩ := Option.isSome_iff_exists.mp hs
  cases hh : source.createIntroHelp <;>
    simp [WorkbenchIntro, WorkbenchIntroSteps, SourceConfigurationStep, hsrc, mount,
      Element.renderError, Element.renderErrorList, DottedStraightArrow, List.replicate, hh]

theorem statsOf_intro {ρ : Type} (env : Env ρ) (st : Stores) :
    (Element.comp "WorkbenchIntro" (WorkbenchIntro env st)).statsOf = [] := by
  unfold WorkbenchIntro WorkbenchIntroSteps SourceConfigurationStep
  cases env.sources.lookup st.workbenchSourceStore.source with
  | none =>
    simp [mount, Element.statsOf, Element.statsOfList, DottedStraightArrow, List.replicate]
  | some source =>
    cases hh : source.createIntroHelp <;>
      simp [mount, Element.statsOf, Element.statsOfList, DottedStraightArrow,
        List.replicate, hh]

theorem surface_intro {ρ : Type} (env : Env ρ) (st : Stores) (cls : String) :
    (Element.comp "WorkbenchIntro" (WorkbenchIntro env st)).surface cls = [] := by
  unfold WorkbenchIntro WorkbenchIntroSteps SourceConfigurationStep
  cases env.sources.lookup st.workbenchSourceStore.source with
  | none =>
    simp [mount, Element.surface, Element.surfaceList, viewsAmong, DottedStraightArrow,
      List.replicate]
  | some source =>
    cases hh : source.createIntroHelp <;>
      simp [mount, Element.surface, Element.surfaceList, viewsAmong, DottedStraightArrow,
        List.replicate, hh]

/-- C1: in every state with `searchResultStore.initial` true, `WorkbenchMain`
renders `WorkbenchIntro`; the tree holds the three onboarding steps in their
order (source and algorithm choice, source configuration, button press) and
neither `ResultStats`, `Stats` nor a `Views` element; the tree is the same for
all values of the other fields of `searchResultStore`, of `clusterStore` and of
`uiStore`; and no component throws when the selected source is registered. -/
theorem intro_mode_renders_intro {ρ : Type} (env : Env ρ) (st : Stores)
    (hinit : st.searchResultStore.initial = true) :
    WorkbenchMain env st = .comp "WorkbenchIntro" (WorkbenchIntro env st) ∧
    (WorkbenchMain env st).outline =
      introOutlineHead ++
        (if (env.sources.lookup st.workbenchSourceStore.source).isSome
          then ["li.SourceConfiguration", "DottedAngledArrow"] else []) ++
        introOutlineTail ∧
    "ResultStats" ∉ (WorkbenchMain env st).outline ∧
    "Stats" ∉ (WorkbenchMain env st).outline ∧
    "Views" ∉ (WorkbenchMain env st).outline ∧
    (WorkbenchMain env st).statsOf = [] ∧
    (WorkbenchMain env st).surface "clusters" = [] ∧
    (WorkbenchMain env st).surface "docs" = [] ∧
    (∀ st' : Stores, st'.searchResultStore.initial = true →
      st'.workbenchSourceStore = st.workbenchSourceStore →
      WorkbenchMain env st' = WorkbenchMain env st) ∧
    ((env.sources.lookup st.workbenchSourceStore.source).isSome = true →
      (WorkbenchMain env st).renderError = none) := by
  have hmain : WorkbenchMain env st = .comp "WorkbenchIntro" (WorkbenchIntro env st) := by
    simp [WorkbenchMain, hinit]
  have hout := outline_intro env st
  refine ⟨hmain, ?_, ?_, ?_, ?_, ?_, ?_, ?_, ?_, ?_⟩
  · rw [hmain, hout]
  · rw [hmain, hout]
    cases (env.sources.lookup st.workbenchSourceStore.source).isSome <;>
      simp [introOutlineHead, introOutlineTail]
  · rw [hmain, hout]
    cases (env.sources.lookup st.workbenchSourceStore.source).isSome <;>
      simp [introOutlineHead, introOutlineTail]
  · rw [hmain, hout]
    cases (env.sources.lookup st.workbenchSourceStore.source).isSome <;>
      simp [introOutlineHead, introOutlineTail]
  · rw [hmain]
    exact statsOf_intro env st
  · rw [hmain]
    exact surface_intro env st "clusters"
  · rw [hmain]
    exact surface_intro env st "docs"
  · intro st' hinit' hsrc
    simp [WorkbenchMain, hinit, hinit', WorkbenchIntro, WorkbenchIntroSteps,
      SourceConfigurationStep, hsrc]
  · intro hs
    rw [hmain]
    exact renderError_intro env st hs

/-- Witness for C1: the intro of `demoEnv` over `introStores`, whose other stores
hold results and loading flags. -/
theorem intro_mode_renders_intro_witness :
    introStores.searchResultStore.initial = true ∧
    (WorkbenchMain demoEnv introStores).outline =
      introOutlineHead ++
        (if (demoEnv.sources.lookup introStores.workbenchSourceStore.source).isSome
          then ["li.SourceConfiguration", "DottedAngledArrow"] else []) ++
        introOutlineTail ∧
    "Views" ∉ (WorkbenchMain demoEnv introStores).outline :=
  ⟨rfl, (intro_mode_renders_intro demoEnv introStores rfl).2.1,
    (intro_mode_renders_intro demoEnv introStores rfl).2.2.2.2.1⟩

theorem workbenchMain_results {ρ : Type} (env : Env ρ) (st : Stores)
    (hinit : st.searchResultStore.initial = false) :
    WorkbenchMain env st =
      .host "div" (some "WorkbenchMain")
        [ .comp "ResultStats" (ResultStats env st),
          .host "div" (some "clusters")
            [.views (clusterViewsProps env st) [.loading (fun s => s.clusterStore.loading)]],
          .host "div" (some "docs")
            [.views (resultsViewsProps env st)
              [.loading (fun s => s.searchResultStore.loading)]] ] := by
  simp [WorkbenchMain, hinit]

theorem surface_clusters_results {ρ : Type} (env : Env ρ) (st : Stores)
    (hinit : st.searchResultStore.initial = false) :
    (WorkbenchMain env st).surface "clusters" =
      [(clusterViewsProps env st, [.loading (fun s => s.clusterStore.loading)])] := by
  rw [workbenchMain_results env st hinit]
  simp [Element.surface, Element.surfaceList, viewsAmong, ResultStats]

theorem surface_docs_results {ρ : Type} (env : Env ρ) (st : Stores)
    (hinit : st.searchResultStore.initial = false) :
    (WorkbenchMain env st).surface "docs" =
      [(resultsViewsProps env st, [.loading (fun s => s.searchResultStore.loading)])] := by
  rw [workbenchMain_results env st hinit]
  simp [Element.surface, Element.surfaceList, viewsAmong, ResultStats]

/-- C2: in every state with `searchResultStore.initial` false, `WorkbenchMain`
renders exactly three regions in this order: the stats strip, whose four stats
are the result count, the cluster count, the clustered-docs percentage and the
clustering time; the cluster-results surface, a `Views` over `clusterViews` whose
active view is the persisted `uiStore.clusterView`; the document-results
surface, a `Views` over `resultsViews`; and the tree holds no intro. -/
theorem results_mode_regions {ρ : Type} (env : Env ρ) (st : Stores)
    (hinit : st.searchResultStore.initial = false) :
    (WorkbenchMain env st).children.map Element.outline = resultsRegions ∧
    (WorkbenchMain env st).statsOf = [resultStats env st] ∧
    (resultStats env st).map (fun s => s.id) =
      ["result-count", "cluster-count", "clustered-docs", "processing-time"] ∧
    (resultStats env st).map (fun s => s.label) =
      ["results", "clusters", "clustered docs", "clustering time"] ∧
    statValue "result-count" (resultStats env st) =
      some (.num st.searchResultStore.searchResult.documents.length) ∧
    statValue "cluster-count" (resultStats env st) =
      some (.num st.clusterStore.clusters.length) ∧
    ((WorkbenchMain env st).surface "clusters").map (fun v => (v.1.activeView, v.1.views)) =
      [(st.uiStore.lookup "clusterView", env.clusterViews)] ∧
    ((WorkbenchMain env st).surface "docs").map (fun v => v.1.views) = [env.resultsViews] ∧
    "WorkbenchIntro" ∉ (WorkbenchMain env st).outline ∧
    "WorkbenchIntroSteps" ∉ (WorkbenchMain env st).outline ∧
    (WorkbenchMain env st).renderError = none := by
  have hmain := workbenchMain_results env st hinit
  refine ⟨?_, ?_, ?_, ?_, ?_, ?_, ?_, ?_, ?_, ?_, ?_⟩
  · rw [hmain]
    simp [Element.children, Element.outline, Element.outlineList, ResultStats, resultsRegions]
  · rw [hmain]
    simp [Element.statsOf, Element.statsOfList, ResultStats]
  · simp [resultStats]
  · simp [resultStats]
  · simp [resultStats, statValue, List.find?]
  · simp [resultStats, statValue, List.find?]
  · rw [surface_clusters_results env st hinit]
    simp [clusterViewsProps]
  · rw [surface_docs_results env st hinit]
    simp [resultsViewsProps]
  · rw [hmain]
    simp [Element.outline, Element.outlineList, ResultStats]
  · rw [hmain]
    simp [Element.outline, Element.outlineList, ResultStats]
  · rw [hmain]
    simp [Element.renderError, Element.renderErrorList, ResultStats]

/-- Witness for C2: the three regions of `demoEnv` over `resultsStores`. -/
theorem results_mode_regions_witness :
    resultsStores.searchResultStore.initial = false ∧
    (WorkbenchMain demoEnv resultsStores).children.map Element.outline = resultsRegions ∧
    ((WorkbenchMain demoEnv resultsStores).surface "clusters").map
        (fun v => (v.1.activeView, v.1.views)) =
      [(resultsStores.uiStore.lookup "clusterView", demoEnv.clusterViews)] :=
  ⟨rfl, (results_mode_regions demoEnv resultsStores rfl).1,
    (results_mode_regions demoEnv resultsStores rfl).2.2.2.2.2.2.1⟩

/-! ## The Loading Gate -/

/-- C6: in results mode the cluster-results surface is one `Views` element over
`clusterViews` whatever `clusterStore.loading` is, and the Loading Gate is a
child of it; called in any state `s`, the predicate of the gate of the cluster
surface returns `s.clusterStore.loading`, so it is true while the clusters load,
and the predicate of the gate of the document surface returns
`s.searchResultStore.loading`. -/
theorem loading_gate_additive {ρ : Type} (env : Env ρ) (st : Stores)
    (hinit : st.searchResultStore.initial = false) :
    (∀ s : Stores,
      ((WorkbenchMain env st).surface "clusters").map
          (fun v => (v.1.views, (loadingAmong v.2).map (fun gate => gate s))) =
        [(env.clusterViews, [s.clusterStore.loading])]) ∧
    (∀ s : Stores,
      ((WorkbenchMain env st).surface "docs").map
          (fun v => (v.1.views, (loadingAmong v.2).map (fun gate => gate s))) =
        [(env.resultsViews, [s.searchResultStore.loading])]) ∧
    (st.clusterStore.loading = true →
      ((WorkbenchMain env st).surface "clusters").map
          (fun v => (v.1.views, (loadingAmong v.2).map (fun gate => gate st))) =
        [(env.clusterViews, [true])]) ∧
    (WorkbenchMain env st).children.map Element.outline = resultsRegions := by
  have hc := surface_clusters_results env st hinit
  have hd := surface_docs_results env st hinit
  refine ⟨?_, ?_, ?_, ?_⟩
  · intro s
    rw [hc]
    simp [loadingAmong, clusterViewsProps]
  · intro s
    rw [hd]
    simp [loadingAmong, resultsViewsProps]
  · intro hl
    rw [hc]
    simp [loadingAmong, clusterViewsProps, hl]
  · rw [workbenchMain_results env st hinit]
    simp [Element.children, Element.outline, Element.outlineList, ResultStats, resultsRegions]

/-- Witness for C6: `resultsStores` is in results mode with the clusters loading. -/
theorem loading_gate_additive_witness :
    resultsStores.searchResultStore.initial = false ∧
    resultsStores.clusterStore.loading = true ∧
    ((WorkbenchMain demoEnv resultsStores).surface "clusters").map
        (fun v => (v.1.views, (loadingAmong v.2).map (fun gate => gate resultsStores))) =
      [(demoEnv.clusterViews, [true])] :=
  ⟨rfl, rfl, (loading_gate_additive demoEnv resultsStores rfl).2.2.1 rfl⟩

/-! ## View switching -/

theorem surface_docs_mem {ρ : Type} (env : Env ρ) (st : Stores)
    (v : ViewsProps ρ × List (Element ρ))
    (hv : v ∈ (WorkbenchMain env st).surface "docs") :
    v.1 = resultsViewsProps env st := by
  cases hinit : st.searchResultStore.initial with
  | true =>
    have hmain : WorkbenchMain env st = .comp "WorkbenchIntro" (WorkbenchIntro env st) := by
      simp [WorkbenchMain, hinit]
    rw [hmain, surface_intro] at hv
    simp at hv
  | false =>
    rw [surface_docs_results env st hinit] at hv
    simp at hv
    rw [hv]

theorem surface_clusters_mem {ρ : Type} (env : Env ρ) (st : Stores)
    (v : ViewsProps ρ × List (Element ρ))
    (hv : v ∈ (WorkbenchMain env st).surface "clusters") :
    v.1 = clusterViewsProps env st := by
  cases hinit : st.searchResultStore.initial with
  | true =>
    have hmain : WorkbenchMain env st = .comp "WorkbenchIntro" (WorkbenchIntro env st) := by
      simp [WorkbenchMain, hinit]
    rw [hmain, surface_intro] at hv
    simp at hv
  | false =>
    rw [surface_clusters_results env st hinit] at hv
    simp at hv
    rw [hv]

/-- C9: in every state, a document-results surface that `WorkbenchMain` renders
has the active view id "list", whatever `uiStore.clusterView` and the other
store fields are; its `onViewChange` handler, called with any view id in any
state, returns that state unchanged, so the render that follows uses "list"
again; and in results mode there is exactly one such surface. -/
theorem docs_surface_fixed {ρ : Type} (env : Env ρ) (st : Stores) :
    (∀ v ∈ (WorkbenchMain env st).surface "docs",
      v.1.activeView = some "list" ∧
      (∀ (id : String) (s : Stores), v.1.onViewChange id s = s) ∧
      (∀ id : String, ∀ w ∈ (WorkbenchMain env (v.1.onViewChange id st)).surface "docs",
        w.1.activeView = some "list")) ∧
    (st.searchResultStore.initial = false →
      ((WorkbenchMain env st).surface "docs").map (fun v => v.1.activeView) =
        [some "list"]) := by
  refine ⟨?_, ?_⟩
  · intro v hv
    have h := surface_docs_mem env st v hv
    refine ⟨?_, ?_, ?_⟩
    · rw [h]; rfl
    · intro id s
      rw [h]; rfl
    · intro id w hw
      rw [surface_docs_mem env _ w hw]; rfl
  · intro hinit
    rw [surface_docs_results env st hinit]
    simp [resultsViewsProps]

/-- Witness for C9: the document-results surface of `resultsStores`, whose
persisted cluster view is "treemap". -/
theorem docs_surface_fixed_witness :
    resultsStores.searchResultStore.initial = false ∧
    ((WorkbenchMain demoEnv resultsStores).surface "docs").map (fun v => v.1.activeView) =
      [some "list"] :=
  ⟨rfl, (docs_surface_fixed demoEnv resultsStores).2 rfl⟩

/-- C10: for every state and every view id, the handlers that the rendered tree
holds leave `searchResultStore`, `clusterStore` and `workbenchSourceStore`
unchanged; the handler of the cluster-results surface sets the `clusterView`
field of the "workbench:ui" preference object to the id, leaves the other fields
of the object and the other namespaces of the Preference Store unchanged, and
writes the object through; rendering itself is a function of the stores. -/
theorem handlers_frame {ρ : Type} (env : Env ρ) (st s : Stores) (id : String) :
    (∀ v ∈ (WorkbenchMain env st).surface "clusters" ++ (WorkbenchMain env st).surface "docs",
      (v.1.onViewChange id s).searchResultStore = s.searchResultStore ∧
      (v.1.onViewChange id s).clusterStore = s.clusterStore ∧
      (v.1.onViewChange id s).workbenchSourceStore = s.workbenchSourceStore) ∧
    (∀ v ∈ (WorkbenchMain env st).surface "clusters",
      (v.1.onViewChange id s).uiStore.lookup "clusterView" = some id ∧
      (∀ k : String, k ≠ "clusterView" →
        (v.1.onViewChange id s).uiStore.lookup k = s.uiStore.lookup k) ∧
      (v.1.onViewChange id s).storage.lookup uiNamespace =
        some (v.1.onViewChange id s).uiStore ∧
      (∀ ns : String, ns ≠ uiNamespace →
        (v.1.onViewChange id s).storage.lookup ns = s.storage.lookup ns)) ∧
    (st.searchResultStore.initial = false →
      ((WorkbenchMain env st).surface "clusters").length = 1) := by
  refine ⟨?_, ?_, ?_⟩
  · intro v hv
    rcases List.mem_append.mp hv with hv | hv
    · rw [surface_clusters_mem env st v hv]
      simp [clusterViewsProps, assignUiStore]
    · rw [surface_docs_mem env st v hv]
      simp [resultsViewsProps]
  · intro v hv
    rw [surface_clusters_mem env st v hv]
    refine ⟨?_, ?_, ?_, ?_⟩
    · simp [clusterViewsProps, assignUiStore, lookup_assocSet_self]
    · intro k hk
      simp [clusterViewsProps, assignUiStore, lookup_assocSet_ne _ _ _ _ hk]
    · simp [clusterViewsProps, assignUiStore, lookup_assocSet_self]
    · intro ns hns
      simp [clusterViewsProps, assignUiStore, lookup_assocSet_ne _ _ _ _ hns]
  · intro hinit
    rw [surface_clusters_results env st hinit]
    rfl

/-- Witness for C10: switching to "pie-chart" in `resultsStores`. -/
theorem handlers_frame_witness :
    resultsStores.searchResultStore.initial = false ∧
    ((WorkbenchMain demoEnv resultsStores).surface "clusters").length = 1 ∧
    (∀ v ∈ (WorkbenchMain demoEnv resultsStores).surface "clusters",
      (v.1.onViewChange "pie-chart" resultsStores).uiStore.lookup "clusterView" =
        some "pie-chart") :=
  ⟨rfl, (handlers_frame demoEnv resultsStores resultsStores "pie-chart").2.2 rfl,
    fun v hv => ((handlers_frame demoEnv resultsStores resultsStores "pie-chart").2.1 v hv).1⟩

/-! ## The source-configuration step -/

/-- Counterexample for C8: the source "etools" selected in `staleSourceStores` is
not a key of the registry of `demoEnv`; `SourceConfigurationStep` throws, and with
it the render of `WorkbenchMain` in intro mode. -/
theorem source_step_unregistered_throws :
    staleSourceStores.searchResultStore.initial = true ∧
    demoEnv.sources.lookup staleSourceStores.workbenchSourceStore.source = none ∧
    SourceConfigurationStep demoEnv staleSourceStores =
      .error (.typeError "Cannot read properties of undefined") ∧
    (WorkbenchMain demoEnv staleSourceStores).renderError =
      some (.typeError "Cannot read properties of undefined") := by
  refine ⟨rfl, rfl, rfl, by decide⟩

/-- C8 (amended): for every Source Registry, every state of the stores and every
selected source identifier that is a key of the registry, `SourceConfigurationStep`
renders without failing.  The step is the list item that holds, in this order,
the arrow, the heading "Configure `label` data source" with the label of the
source, and then the help content when the source has a `createIntroHelp`; when
it has none the step ends with the heading and shows no help content. -/
theorem source_step_registered_renders {ρ : Type} (env : Env ρ) (st : Stores)
    (source : Source ρ)
    (hsrc : env.sources.lookup st.workbenchSourceStore.source = some source) :
    ∃ step : Element ρ,
      SourceConfigurationStep env st = .ok step ∧
      step.renderError = none ∧
      step.outline = ["li.SourceConfiguration", "DottedAngledArrow"] ∧
      step.texts = ["Configure ", source.label, " data source"] ∧
      step.foreigns = (source.createIntroHelp.map (fun create => create ())).toList ∧
      (source.createIntroHelp = none → step.foreigns = []) ∧
      step =
        .host "li" (some "SourceConfiguration")
          ([ .imported "DottedAngledArrow",
             .host "h3" none
               [.text "Configure ", .host "strong" none [.text source.label],
                .text " data source"] ]
            ++ ((source.createIntroHelp.map (fun create => create ())).map
              Element.foreign).toList) ∧
      step.content =
        [Sum.inl "Configure ", Sum.inl source.label, Sum.inl " data source"] ++
          ((source.createIntroHelp.map (fun create => create ())).map Sum.inr).toList ∧
      (source.createIntroHelp = none →
        step.content =
          [Sum.inl "Configure ", Sum.inl source.label, Sum.inl " data source"]) ∧
      (∀ create, source.createIntroHelp = some create →
        step.content =
          [Sum.inl "Configure ", Sum.inl source.label, Sum.inl " data source",
           Sum.inr (create ())]) := by
  cases hh : source.createIntroHelp with
  | none =>
    refine ⟨_, by simp [SourceConfigurationStep, hsrc]; rfl, ?_, ?_, ?_, ?_, ?_, ?_, ?_, ?_, ?_⟩ <;>
      simp [hh, Element.renderError, Element.renderErrorList, Element.outline,
        Element.outlineList, Element.texts, Element.textsList, Element.foreigns,
        Element.foreignsList, Element.content, Element.contentList]
  | some create =>
    refine ⟨_, by simp [SourceConfigurationStep, hsrc]; rfl, ?_, ?_, ?_, ?_, ?_, ?_, ?_, ?_, ?_⟩ <;>
      simp [hh, Element.renderError, Element.renderErrorList, Element.outline,
        Element.outlineList, Element.texts, Element.textsList, Element.foreigns,
        Element.foreignsList, Element.content, Element.contentList]

/-- Witness for C8 (amended): the source "web" of `demoEnv` has no
`createIntroHelp` and its step ends with the heading; the source "solr" has one
and its help content follows the heading. -/
theorem source_step_registered_renders_witness :
    (demoEnv.sources.lookup introStores.workbenchSourceStore.source =
        some { label := "Web", createIntroHelp := none } ∧
      ∃ step : Element String,
        SourceConfigurationStep demoEnv introStores = .ok step ∧
        step.texts = ["Configure ", "Web", " data source"] ∧
        step.foreigns = [] ∧
        step.content = [Sum.inl "Configure ", Sum.inl "Web", Sum.inl " data source"]) ∧
    (demoEnv.sources.lookup solrStores.workbenchSourceStore.source =
        some { label := "Solr", createIntroHelp := some (fun _ => "solr-help") } ∧
      ∃ step : Element String,
        SourceConfigurationStep demoEnv solrStores = .ok step ∧
        step.content =
          [Sum.inl "Configure ", Sum.inl "Solr", Sum.inl " data source",
           Sum.inr "solr-help"]) :=
  ⟨⟨rfl,
      (source_step_registered_renders demoEnv introStores
        { label := "Web", createIntroHelp := none } rfl).imp
        (fun _ h => ⟨h.1, h.2.2.2.1, h.2.2.2.2.2.1 rfl, h.2.2.2.2.2.2.2.2.1 rfl⟩)⟩,
    ⟨rfl,
      (source_step_registered_renders demoEnv solrStores
        { label := "Solr", createIntroHelp := some (fun _ => "solr-help") } rfl).imp
        (fun _ h => ⟨h.1, h.2.2.2.2.2.2.2.2.2 _ rfl⟩)⟩⟩

/-! ## View resolution and the persisted view -/

theorem resolve_registered {ρ : Type} (views : List (ViewDescriptor ρ))
    (viewId : Option String) (hne : views ≠ []) :
    ∃ d, resolve views viewId = some d ∧ d ∈ views ∧
      ((∃ d' ∈ views, some d'.id = viewId) → some d.id = viewId) ∧
      ((∀ d' ∈ views, some d'.id ≠ viewId) → some d = views.head?) := by
  unfold resolve
  cases hfind : views.find? (fun d => decide (some d.id = viewId)) with
  | some d =>
    have hp := List.find?_some hfind
    have hmem := List.mem_of_find?_eq_some hfind
    refine ⟨d, rfl, hmem, fun _ => by simpa using hp, fun hall => ?_⟩
    exact absurd (by simpa using hp) (hall d hmem)
  | none =>
    cases views with
    | nil => exact absurd rfl hne
    | cons d rest =>
      refine ⟨d, rfl, List.mem_cons_self _ _, fun hex => ?_, fun _ => rfl⟩
      obtain ⟨d', hd', hid⟩ := hex
      have := List.find?_eq_none.mp hfind d' hd'
      simp [hid] at this

/-- C4: for every persisted value of `uiStore.clusterView`, registered or not,
`WorkbenchMain` passes it to the cluster-results surface as `activeView`, and
resolving it over `clusterViews` never fails: the result is a descriptor
registered in `clusterViews`, the one with the persisted id when that id is
registered, and the first descriptor of `clusterViews` otherwise. -/
theorem active_view_resolves {ρ : Type} (env : Env ρ) (st : Stores)
    (hinit : st.searchResultStore.initial = false) (hne : env.clusterViews ≠ []) :
    ∃ d : ViewDescriptor ρ,
      ((WorkbenchMain env st).surface "clusters").map
          (fun v => (v.1.activeView, resolve v.1.views v.1.activeView)) =
        [(st.uiStore.lookup "clusterView", some d)] ∧
      d ∈ env.clusterViews ∧
      ((∃ d' ∈ env.clusterViews, some d'.id = st.uiStore.lookup "clusterView") →
        some d.id = st.uiStore.lookup "clusterView") ∧
      ((∀ d' ∈ env.clusterViews, some d'.id ≠ st.uiStore.lookup "clusterView") →
        some d = env.clusterViews.head?) := by
  obtain ⟨d, hres, hmem, hreg, hfirst⟩ :=
    resolve_registered env.clusterViews (st.uiStore.lookup "clusterView") hne
  refine ⟨d, ?_, hmem, hreg, hfirst⟩
  rw [surface_clusters_results env st hinit]
  simp [clusterViewsProps, hres]

/-- Witness for C4: the stale view id "sunburst" resolves to a registered view. -/
theorem active_view_resolves_witness :
    staleViewStores.searchResultStore.initial = false ∧
    demoEnv.clusterViews ≠ [] ∧
    ∃ d : ViewDescriptor String,
      ((WorkbenchMain demoEnv staleViewStores).surface "clusters").map
          (fun v => (v.1.activeView, resolve v.1.views v.1.activeView)) =
        [(staleViewStores.uiStore.lookup "clusterView", some d)] ∧
      d ∈ demoEnv.clusterViews :=
  ⟨rfl, by simp [demoEnv],
    (active_view_resolves demoEnv staleViewStores rfl (by simp [demoEnv])).imp
      (fun _ h => ⟨h.1, h.2.1⟩)⟩

theorem switchClusterView_results {ρ : Type} (env : Env ρ) (id : String) (st : Stores)
    (hinit : st.searchResultStore.initial = false) :
    switchClusterView env id st = assignUiStore "clusterView" id st := by
  unfold switchClusterView
  rw [surface_clusters_results env st hinit]
  rfl

theorem switchClusterViews_spec {ρ : Type} (env : Env ρ) (ids : List String) :
    ∀ (st : Stores) (x : String), st.searchResultStore.initial = false →
      st.uiStore = [("clusterView", x)] →
      (switchClusterViews env ids st).searchResultStore.initial = false ∧
      (switchClusterViews env ids st).uiStore = [("clusterView", ids.getLast?.getD x)] ∧
      ((ids = [] ∧ (switchClusterViews env ids st).storage = st.storage) ∨
        (switchClusterViews env ids st).storage.lookup uiNamespace =
          some (switchClusterViews env ids st).uiStore) := by
  induction ids with
  | nil =>
    intro st x hinit hui
    exact ⟨hinit, by simpa using hui, Or.inl ⟨rfl, rfl⟩⟩
  | cons id rest ih =>
    intro st x hinit hui
    have hstep : switchClusterViews env (id :: rest) st =
        switchClusterViews env rest (assignUiStore "clusterView" id st) := by
      simp [switchClusterViews, switchClusterView_results env id st hinit]
    have hui' : (assignUiStore "clusterView" id st).uiStore = [("clusterView", id)] := by
      simp [assignUiStore, hui, assocSet]
    have hinit' : (assignUiStore "clusterView" id st).searchResultStore.initial = false := by
      simpa [assignUiStore] using hinit
    obtain ⟨h1, h2, h3⟩ := ih (assignUiStore "clusterView" id st) id hinit' hui'
    rw [hstep]
    refine ⟨h1, ?_, ?_⟩
    · rw [h2]
      cases rest <;> simp [List.getLast?]
    · rcases h3 with ⟨hnil, hst⟩ | h3
      · right
        subst hnil
        simp [switchClusterViews, assignUiStore, lookup_assocSet_self]
      · exact Or.inr h3

theorem uiStore_fresh (st : Stores)
    (hempty : st.storage.lookup uiNamespace = none ∨ st.storage.lookup uiNamespace = some []) :
    (uiStore st).uiStore = uiDefaults ∧
    ((uiStore st).storage.lookup uiNamespace = some uiDefaults ∨
      (uiStore st).storage.lookup uiNamespace = some []) := by
  rcases hempty with h | h
  · refine ⟨by simp [uiStore, persistentStore, h], Or.inl ?_⟩
    simp [uiStore, persistentStore, h, lookup_assocSet_self]
  · refine ⟨by simp [uiStore, persistentStore, h], Or.inr ?_⟩
    simp [uiStore, persistentStore, h]

/-- C5: start from a Preference Store whose entry for "workbench:ui" is absent or
empty, so that `uiStore` is created from the defaults.  After any finite sequence
of view ids passed to the `onViewChange` handler of the cluster-results surface,
`uiStore.clusterView` is the last id of the sequence, and "folders" when the
sequence is empty; the next render of `WorkbenchMain` passes this id as
`activeView` to the cluster-results surface; and reading the preference back
from the Preference Store, as after a restart, yields the same id. -/
theorem cluster_view_persists {ρ : Type} (env : Env ρ) (st : Stores) (ids : List String)
    (hinit : st.searchResultStore.initial = false)
    (hempty : st.storage.lookup uiNamespace = none ∨ st.storage.lookup uiNamespace = some []) :
    (switchClusterViews env ids (uiStore st)).uiStore.lookup "clusterView" =
      some (ids.getLast?.getD "folders") ∧
    ((WorkbenchMain env (switchClusterViews env ids (uiStore st))).surface "clusters").map
        (fun v => v.1.activeView) = [some (ids.getLast?.getD "folders")] ∧
    (persistentStore (switchClusterViews env ids (uiStore st)).storage uiNamespace
        uiDefaults).1.lookup "clusterView" = some (ids.getLast?.getD "folders") := by
  obtain ⟨hui, hsto⟩ := uiStore_fresh st hempty
  have hinit0 : (uiStore st).searchResultStore.initial = false := by
    simpa [uiStore] using hinit
  obtain ⟨h1, h2, h3⟩ := switchClusterViews_spec env ids (uiStore st) "folders" hinit0 hui
  refine ⟨by simp [h2, List.lookup], ?_, ?_⟩
  · rw [surface_clusters_results env _ h1]
    simp [clusterViewsProps, h2, List.lookup]
  · rcases h3 with ⟨hnil, hst⟩ | h3
    · subst hnil
      rw [hst]
      rcases hsto with h | h <;>
        simp [persistentStore, h, uiDefaults, assocSet, List.lookup]
    · simp [persistentStore, h3, h2, uiDefaults, assocSet, List.lookup]

/-- Witness for C5: from the empty Preference Store of `freshStores` put in
results mode, switching to "treemap" and then to "pie-chart". -/
theorem cluster_view_persists_witness :
    ({ freshStores with searchResultStore := resultsStores.searchResultStore } :
      Stores).searchResultStore.initial = false ∧
    (({ freshStores with searchResultStore := resultsStores.searchResultStore } :
        Stores).storage.lookup uiNamespace = none ∨
      ({ freshStores with searchResultStore := resultsStores.searchResultStore } :
        Stores).storage.lookup uiNamespace = some []) ∧
    (persistentStore (switchClusterViews demoEnv ["treemap", "pie-chart"]
        (uiStore { freshStores with searchResultStore := resultsStores.searchResultStore })).storage
        uiNamespace uiDefaults).1.lookup "clusterView" = some "pie-chart" :=
  ⟨rfl, Or.inl rfl,
    (cluster_view_persists demoEnv
      { freshStores with searchResultStore := resultsStores.searchResultStore }
      ["treemap", "pie-chart"] rfl (Or.inl rfl)).2.2⟩

/-! ## The stats strip -/

/-- C7: for every `clusterStore` whose `serviceInfo` is absent, and for every one
whose `serviceInfo` has no `clusteringTimeMillis`, `ResultStats` renders without
failing, with its four stats, and the value of the "processing-time" stat is the
placeholder "—", a string and not a number. -/
theorem missing_time_placeholder {ρ : Type} (env : Env ρ) (st : Stores)
    (hmissing : st.clusterStore.serviceInfo = none ∨
      st.clusterStore.serviceInfo = some { clusteringTimeMillis := none }) :
    (ResultStats env st).renderError = none ∧
    (ResultStats env st).statsOf = [resultStats env st] ∧
    (resultStats env st).length = 4 ∧
    statValue "processing-time" (resultStats env st) = some (.str "—") := by
  refine ⟨by simp [ResultStats, Element.renderError, Element.renderErrorList],
    by simp [ResultStats, Element.statsOf, Element.statsOfList],
    by simp [resultStats], ?_⟩
  rcases hmissing with h | h <;>
    simp [resultStats, statValue, List.find?, h, humanizeDuration]

/-- Witness for C7: `untimedStores` has a `serviceInfo` without
`clusteringTimeMillis`. -/
theorem missing_time_placeholder_witness :
    (untimedStores.clusterStore.serviceInfo = none ∨
      untimedStores.clusterStore.serviceInfo = some { clusteringTimeMillis := none }) ∧
    statValue "processing-time" (resultStats demoEnv untimedStores) = some (.str "—") :=
  ⟨Or.inr rfl, (missing_time_placeholder demoEnv untimedStores (Or.inr rfl)).2.2.2⟩

/-! ## Correct rounding -/

theorem log2Fuel_spec : ∀ (fuel n : Nat), n ≤ fuel → 0 < n →
    2 ^ log2Fuel fuel n ≤ n ∧ n < 2 ^ (log2Fuel fuel n + 1) := by
  intro fuel
  induction fuel with
  | zero => intro n h1 h2; omega
  | succ fuel ih =>
    intro n hle hpos
    unfold log2Fuel
    by_cases h2 : n < 2
    · simp only [h2, if_true]
      constructor <;> simp <;> omega
    · simp only [h2, if_false]
      have hdiv : n / 2 ≤ fuel := by omega
      have hpos' : 0 < n / 2 := by omega
      obtain ⟨h3, h4⟩ := ih (n / 2) hdiv hpos'
      rw [pow_succ] at h4
      constructor
      · rw [pow_succ]; omega
      · rw [pow_succ, pow_succ]; omega

theorem ilog2_spec (n : Nat) (hpos : 0 < n) :
    2 ^ ilog2 n ≤ n ∧ n < 2 ^ (ilog2 n + 1) :=
  log2Fuel_spec n n le_rfl hpos

theorem floorLog2_spec (p q : Nat) (hp : 0 < p) (hq : 0 < q) :
    (2 : ℚ) ^ floorLog2 p q ≤ (p : ℚ) / q ∧ (p : ℚ) / q < (2 : ℚ) ^ (floorLog2 p q + 1) := by
  obtain ⟨ha1, ha2⟩ := ilog2_spec p hp
  obtain ⟨hb1, hb2⟩ := ilog2_spec q hq
  have hqQ : (0 : ℚ) < q := by exact_mod_cast hq
  have h2a : (0 : ℚ) < 2 ^ ilog2 p := by positivity
  have h2b : (0 : ℚ) < 2 ^ ilog2 q := by positivity
  have ha1Q : (2 : ℚ) ^ ilog2 p ≤ p := by exact_mod_cast ha1
  have ha2Q : (p : ℚ) < 2 ^ (ilog2 p + 1) := by exact_mod_cast ha2
  have hb1Q : (2 : ℚ) ^ ilog2 q ≤ q := by exact_mod_cast hb1
  have hb2Q : (q : ℚ) < 2 ^ (ilog2 q + 1) := by exact_mod_cast hb2
  have hsub : (2 : ℚ) ^ ((ilog2 p : ℤ) - (ilog2 q : ℤ)) = 2 ^ ilog2 p / 2 ^ ilog2 q := by
    rw [zpow_sub₀ (by norm_num : (2 : ℚ) ≠ 0)]
    simp
  unfold floorLog2
  by_cases hc : q * 2 ^ ilog2 p ≤ p * 2 ^ ilog2 q
  · simp only [hc, if_true]
    have hcQ : (q : ℚ) * 2 ^ ilog2 p ≤ p * 2 ^ ilog2 q := by exact_mod_cast hc
    constructor
    · rw [hsub, div_le_div_iff₀ h2b hqQ]
      linarith
    · rw [zpow_add_one₀ (by norm_num : (2 : ℚ) ≠ 0), hsub, div_mul_eq_mul_div,
        div_lt_div_iff₀ hqQ h2b]
      rw [pow_succ] at ha2Q
      nlinarith
  · simp only [hc, if_false]
    have hcQ : (p : ℚ) * 2 ^ ilog2 q < q * 2 ^ ilog2 p := by
      have := Nat.lt_of_not_le hc
      exact_mod_cast this
    constructor
    · rw [zpow_sub_one₀ (by norm_num : (2 : ℚ) ≠ 0), hsub, ← div_eq_mul_inv, div_div,
        div_le_div_iff₀ (by positivity) hqQ]
      rw [pow_succ] at hb2Q
      nlinarith
    · rw [sub_add_cancel, hsub, div_lt_div_iff₀ hqQ h2b]
      linarith

theorem roundHalfEven_spec (p q : Nat) (hq : 0 < q) :
    |(roundHalfEven p q : ℚ) - (p : ℚ) / q| ≤ 1 / 2 := by
  have hqQ : (0 : ℚ) < q := by exact_mod_cast hq
  have hdm : (p : ℚ) = (q : ℚ) * ((p / q : ℕ) : ℚ) + ((p % q : ℕ) : ℚ) := by
    exact_mod_cast (Nat.div_add_mod p q).symm
  have hr : ((p % q : ℕ) : ℚ) < q := by exact_mod_cast Nat.mod_lt p hq
  have hr0 : (0 : ℚ) ≤ ((p % q : ℕ) : ℚ) := by positivity
  have hfrac : (p : ℚ) / q = ((p / q : ℕ) : ℚ) + ((p % q : ℕ) : ℚ) / q := by
    rw [hdm]
    field_simp
    ring
  rw [hfrac, abs_le]
  have hcases : (roundHalfEven p q = p / q ∧ 2 * (p % q) ≤ q) ∨
      (roundHalfEven p q = p / q + 1 ∧ q ≤ 2 * (p % q)) := by
    unfold roundHalfEven
    split_ifs <;> omega
  rcases hcases with ⟨hm, hle⟩ | ⟨hm, hle⟩
  · have hleQ : 2 * ((p % q : ℕ) : ℚ) ≤ q := by exact_mod_cast hle
    have : ((p % q : ℕ) : ℚ) / q ≤ 1 / 2 := by
      rw [div_le_div_iff₀ hqQ (by norm_num)]
      linarith
    have h0 : 0 ≤ ((p % q : ℕ) : ℚ) / q := by positivity
    rw [hm]
    constructor <;> linarith
  · have hleQ : (q : ℚ) ≤ 2 * ((p % q : ℕ) : ℚ) := by exact_mod_cast hle
    have h1 : (1 : ℚ) / 2 ≤ ((p % q : ℕ) : ℚ) / q := by
      rw [div_le_div_iff₀ (by norm_num) hqQ]
      linarith
    have h2 : ((p % q : ℕ) : ℚ) / q < 1 := by
      rw [div_lt_one hqQ]
      exact hr
    rw [hm]
    push_cast
    constructor <;> linarith

theorem round_spec (p q : Nat) (s : ℤ) (hp : 0 < p) (hq : 0 < q)
    (hlo : (2 : ℚ) ^ (-1022 : ℤ) ≤ (p : ℚ) / q * 2 ^ s)
    (hhi : (p : ℚ) / q * 2 ^ s < (2 : ℚ) ^ (1023 : ℤ)) :
    ∃ m e, Double.round p q s = .finite m e ∧
      |(m : ℚ) * 2 ^ e - (p : ℚ) / q * 2 ^ s| ≤ (p : ℚ) / q * 2 ^ s * 2 ^ (-53 : ℤ) := by
  obtain ⟨h1, h2⟩ := floorLog2_spec p q hp hq
  have h2ne : (2 : ℚ) ≠ 0 := by norm_num
  have hspos : (0 : ℚ) < 2 ^ s := by positivity
  have hE1 : (2 : ℚ) ^ (floorLog2 p q + s) ≤ (p : ℚ) / q * 2 ^ s := by
    rw [zpow_add₀ h2ne]
    exact mul_le_mul_of_nonneg_right h1 hspos.le
  have hE2 : (p : ℚ) / q * 2 ^ s < (2 : ℚ) ^ (floorLog2 p q + s + 1) := by
    have : (2 : ℚ) ^ (floorLog2 p q + s + 1) = 2 ^ (floorLog2 p q + 1) * 2 ^ s := by
      rw [← zpow_add₀ h2ne]; ring_nf
    rw [this]
    exact mul_lt_mul_of_pos_right h2 hspos
  have hElo : -1022 < floorLog2 p q + s + 1 :=
    (zpow_lt_zpow_iff_right₀ (by norm_num : (1 : ℚ) < 2)).mp (lt_of_le_of_lt hlo hE2)
  have hEhi : floorLog2 p q + s < 1023 :=
    (zpow_lt_zpow_iff_right₀ (by norm_num : (1 : ℚ) < 2)).mp (lt_of_le_of_lt hE1 hhi)
  have hulp : max (floorLog2 p q + s - 52) (-1074) = floorLog2 p q + s - 52 :=
    max_eq_left (by omega)
  have hnov : ¬ (971 < floorLog2 p q + s - 52 ∨
      (floorLog2 p q + s - 52 = 971 ∧
        2 ^ 53 ≤ (if 0 ≤ s - (floorLog2 p q + s - 52)
          then roundHalfEven (p * 2 ^ (s - (floorLog2 p q + s - 52)).toNat) q
          else roundHalfEven p (q * 2 ^ (-(s - (floorLog2 p q + s - 52))).toNat)))) := by
    omega
  refine ⟨(if 0 ≤ s - (floorLog2 p q + s - 52)
      then roundHalfEven (p * 2 ^ (s - (floorLog2 p q + s - 52)).toNat) q
      else roundHalfEven p (q * 2 ^ (-(s - (floorLog2 p q + s - 52))).toNat)),
    floorLog2 p q + s - 52, ?_, ?_⟩
  · unfold Double.round
    simp only [hp.ne', if_false, hulp, hnov]
  · set k : ℤ := s - (floorLog2 p q + s - 52) with hk
    have hX : |((if 0 ≤ k then roundHalfEven (p * 2 ^ k.toNat) q
          else roundHalfEven p (q * 2 ^ (-k).toNat) : ℕ) : ℚ) - (p : ℚ) / q * 2 ^ k| ≤ 1 / 2 := by
      by_cases hk0 : 0 ≤ k
      · simp only [hk0, if_true]
        have := roundHalfEven_spec (p * 2 ^ k.toNat) q hq
        have hz : (2 : ℚ) ^ k = 2 ^ k.toNat := by
          rw [← zpow_natCast, Int.toNat_of_nonneg hk0]
        rw [hz]
        push_cast at this
        rwa [mul_div_right_comm] at this
      · simp only [hk0, if_false]
        have := roundHalfEven_spec p (q * 2 ^ (-k).toNat) (by positivity)
        have hz : (2 : ℚ) ^ k = (2 ^ (-k).toNat)⁻¹ := by
          rw [← zpow_natCast, Int.toNat_of_nonneg (by omega), zpow_neg, inv_inv]
        rw [hz]
        push_cast at this
        rwa [← div_div, div_eq_mul_inv ((p : ℚ) / q)] at this
    have hu : (0 : ℚ) < 2 ^ (floorLog2 p q + s - 52) := by positivity
    have hv : (p : ℚ) / q * 2 ^ s = (p : ℚ) / q * 2 ^ k * 2 ^ (floorLog2 p q + s - 52) := by
      rw [mul_assoc, ← zpow_add₀ h2ne]
      congr 2
      omega
    have hhalf : (2 : ℚ) ^ (floorLog2 p q + s - 52) * (1 / 2) =
        2 ^ (floorLog2 p q + s) * 2 ^ (-53 : ℤ) := by
      rw [show floorLog2 p q + s - 52 = (floorLog2 p q + s) + (-52) by ring,
        zpow_add₀ h2ne, mul_assoc]
      congr 1
      rw [show (-52 : ℤ) = -53 + 1 by norm_num, zpow_add₀ h2ne]
      norm_num
    calc |((if 0 ≤ k then roundHalfEven (p * 2 ^ k.toNat) q
            else roundHalfEven p (q * 2 ^ (-k).toNat) : ℕ) : ℚ) *
            2 ^ (floorLog2 p q + s - 52) - (p : ℚ) / q * 2 ^ s|
        = |((if 0 ≤ k then roundHalfEven (p * 2 ^ k.toNat) q
            else roundHalfEven p (q * 2 ^ (-k).toNat) : ℕ) : ℚ) - (p : ℚ) / q * 2 ^ k| *
            2 ^ (floorLog2 p q + s - 52) := by
          rw [hv, ← sub_mul, abs_mul, abs_of_pos hu]
      _ ≤ 1 / 2 * 2 ^ (floorLog2 p q + s - 52) := mul_le_mul_of_nonneg_right hX hu.le
      _ = 2 ^ (floorLog2 p q + s) * 2 ^ (-53 : ℤ) := by rw [mul_comm, hhalf]
      _ ≤ (p : ℚ) / q * 2 ^ s * 2 ^ (-53 : ℤ) :=
          mul_le_mul_of_nonneg_right hE1 (by positivity)

theorem roundHalfEven_one (x : Nat) : roundHalfEven x 1 = x := by
  simp [roundHalfEven, Nat.mod_one]

theorem floorLog2_one (n : Nat) (hpos : 0 < n) : floorLog2 n 1 = (ilog2 n : ℤ) := by
  have h := (ilog2_spec n hpos).1
  have h1 : ilog2 1 = 0 := by decide
  simp [floorLog2, h1, h]

theorem ofNat_exact (n : Nat) (hpos : 0 < n) (hlt : n < 2 ^ 53) :
    ∃ m e, Double.ofNat n = .finite m e ∧ 0 < m ∧ (m : ℚ) * 2 ^ e = n := by
  have ha : ilog2 n ≤ 52 := by
    have h := (ilog2_spec n hpos).1
    by_contra hc
    have : 2 ^ 53 ≤ 2 ^ ilog2 n := Nat.pow_le_pow_right (by norm_num) (by omega)
    omega
  have hulp : max ((ilog2 n : ℤ) + 0 - 52) (-1074) = (ilog2 n : ℤ) - 52 := by
    rw [add_zero]
    exact max_eq_left (by omega)
  have hk : (0 : ℤ) ≤ 0 - ((ilog2 n : ℤ) - 52) := by omega
  have hkn : (0 - ((ilog2 n : ℤ) - 52)).toNat = 52 - ilog2 n := by omega
  have hnov : ¬ (971 < (ilog2 n : ℤ) - 52 ∨
      ((ilog2 n : ℤ) - 52 = 971 ∧ 2 ^ 53 ≤ n * 2 ^ (52 - ilog2 n))) := by omega
  refine ⟨n * 2 ^ (52 - ilog2 n), (ilog2 n : ℤ) - 52, ?_, by positivity, ?_⟩
  · unfold Double.ofNat Double.round
    simp only [hpos.ne', if_false, floorLog2_one n hpos, hulp, hk, if_true, hkn,
      roundHalfEven_one, hnov]
  · push_cast
    rw [mul_assoc, ← zpow_natCast, ← zpow_add₀ (by norm_num : (2 : ℚ) ≠ 0)]
    have : ((52 - ilog2 n : ℕ) : ℤ) + ((ilog2 n : ℤ) - 52) = 0 := by omega
    rw [this]
    simp

theorem geTenPow21_false (m : Nat) (e : ℤ) (h : (m : ℚ) * 2 ^ e < 10 ^ 21) :
    geTenPow21 m e = false := by
  unfold geTenPow21
  by_cases he : 0 ≤ e
  · simp only [he, if_true, decide_eq_false_iff_not, not_le]
    have hz : (2 : ℚ) ^ e = 2 ^ e.toNat := by
      rw [← zpow_natCast, Int.toNat_of_nonneg he]
    rw [hz] at h
    exact_mod_cast h
  · simp only [he, if_false, decide_eq_false_iff_not, not_le]
    have hz : (2 : ℚ) ^ e = (2 ^ (-e).toNat)⁻¹ := by
      rw [← zpow_natCast, Int.toNat_of_nonneg (by omega), zpow_neg, inv_inv]
    rw [hz, ← div_eq_mul_inv, div_lt_iff₀ (by positivity)] at h
    exact_mod_cast h

theorem nearestScaled_spec (m : Nat) (e : ℤ) :
    (nearestScaled m e 1 : ℚ) ≤ 10 * ((m : ℚ) * 2 ^ e) + 1 / 2 ∧
    10 * ((m : ℚ) * 2 ^ e) + 1 / 2 < (nearestScaled m e 1 : ℚ) + 1 := by
  unfold nearestScaled
  by_cases he : 0 ≤ e
  · simp only [he, if_true]
    have hz : (2 : ℚ) ^ e = 2 ^ e.toNat := by
      rw [← zpow_natCast, Int.toNat_of_nonneg he]
    rw [hz]
    push_cast
    constructor <;> linarith
  · simp only [he, if_false]
    have hz : (2 : ℚ) ^ e = (2 ^ (-e).toNat)⁻¹ := by
      rw [← zpow_natCast, Int.toNat_of_nonneg (by omega), zpow_neg, inv_inv]
    rw [hz]
    set d : ℕ := 2 ^ (-e).toNat with hd
    have hdpos : 0 < d := by positivity
    have hdQ : (0 : ℚ) < d := by exact_mod_cast hdpos
    have hd' : ((2 : ℚ) ^ (-e).toNat) = (d : ℚ) := by rw [hd]; push_cast; rfl
    rw [hd']
    have h1 : (2 * m * 10 ^ 1 + d) / (2 * d) * (2 * d) ≤ 2 * m * 10 ^ 1 + d :=
      Nat.div_mul_le_self _ _
    have h2 : 2 * m * 10 ^ 1 + d < ((2 * m * 10 ^ 1 + d) / (2 * d) + 1) * (2 * d) :=
      Nat.lt_mul_of_div_lt (Nat.lt_succ_self _) (by positivity)
    generalize (2 * m * 10 ^ 1 + d) / (2 * d) = n at h1 h2
    have h1Q : (n : ℚ) * (2 * d) ≤ 2 * m * 10 + d := by exact_mod_cast h1
    have h2Q : (2 : ℚ) * m * 10 + d < (n + 1) * (2 * d) := by exact_mod_cast h2
    have hx : (m : ℚ) * (d : ℚ)⁻¹ * d = m := by field_simp
    constructor
    · have : (n : ℚ) * d ≤ (10 * ((m : ℚ) * (d : ℚ)⁻¹) + 1 / 2) * d := by
        have : (10 * ((m : ℚ) * (d : ℚ)⁻¹) + 1 / 2) * d = 10 * m + d / 2 := by
          field_simp
          ring
        rw [this]; linarith
      exact le_of_mul_le_mul_right this hdQ
    · have : (10 * ((m : ℚ) * (d : ℚ)⁻¹) + 1 / 2) * d < ((n : ℚ) + 1) * d := by
        have : (10 * ((m : ℚ) * (d : ℚ)⁻¹) + 1 / 2) * d = 10 * m + d / 2 := by
          field_simp
          ring
        rw [this]; linarith
      exact lt_of_mul_lt_mul_right this hdQ.le

theorem toDigitsCore_eq : ∀ (n fuel : Nat) (ds : List Char), n < fuel →
    Nat.toDigitsCore 10 fuel n ds = Nat.toDigits 10 n ++ ds := by
  intro n
  induction n using Nat.strong_induction_on with
  | _ n ih =>
    intro fuel ds hlt
    obtain ⟨f, rfl⟩ : ∃ f, fuel = f + 1 := ⟨fuel - 1, by omega⟩
    unfold Nat.toDigits
    simp only [Nat.toDigitsCore]
    by_cases h0 : n / 10 = 0
    · simp [h0]
    · simp only [h0, if_false]
      have hlt' : n / 10 < n := by omega
      rw [ih (n / 10) hlt' f _ (by omega), ih (n / 10) hlt' n _ hlt']
      simp

theorem toDigits_lt_ten (n : Nat) (h : n < 10) :
    Nat.toDigits 10 n = [Nat.digitChar n] := by
  unfold Nat.toDigits
  simp only [Nat.toDigitsCore]
  have h0 : n / 10 = 0 := by omega
  have h1 : n % 10 = n := by omega
  simp [h0, h1]

theorem toDigits_ge_ten (n : Nat) (h : 10 ≤ n) :
    Nat.toDigits 10 n = Nat.toDigits 10 (n / 10) ++ [Nat.digitChar (n % 10)] := by
  conv_lhs => unfold Nat.toDigits
  simp only [Nat.toDigitsCore]
  have h0 : n / 10 ≠ 0 := by omega
  simp only [h0, if_false]
  exact toDigitsCore_eq (n / 10) n _ (by omega)

theorem toDigits_length_pos (n : Nat) : 0 < (Nat.toDigits 10 n).length := by
  by_cases h : n < 10
  · simp [toDigits_lt_ten n h]
  · simp [toDigits_ge_ten n (by omega)]

theorem mk_append_dot (a b : List Char) :
    String.mk a ++ "." ++ String.mk b = String.mk (a ++ '.' :: b) := by
  apply String.ext
  simp [String.data_append]

theorem toString_eq_mk (n : Nat) : toString n = String.mk (Nat.toDigits 10 n) := rfl

theorem toFixed_one (nts : Double → String) (m : Nat) (e : ℤ)
    (h : geTenPow21 m e = false) :
    Double.toFixed nts (.finite m e) 1 =
      toString (nearestScaled m e 1 / 10) ++ "." ++ toString (nearestScaled m e 1 % 10) := by
  rw [toString_eq_mk, toString_eq_mk, mk_append_dot]
  unfold Double.toFixed
  simp only [h, Bool.false_eq_true, if_false, Nat.one_ne_zero]
  generalize nearestScaled m e 1 = n
  congr 1
  by_cases hn : n < 10
  · have h0 : n / 10 = 0 := by omega
    have h1 : n % 10 = n := by omega
    rw [h0, h1, toDigits_lt_ten n hn, toDigits_lt_ten 0 (by norm_num)]
    simp
    rfl
  · rw [toDigits_ge_ten n (by omega), toDigits_lt_ten (n % 10) (Nat.mod_lt _ (by norm_num))]
    have hpos := toDigits_length_pos (n / 10)
    have hrep : 1 + 1 - ((Nat.toDigits 10 (n / 10)).length + 1) = 0 := by omega
    simp [hrep]

/-! ## The clustered-docs percentage -/

theorem ofNat_hundred : Double.ofNat 100 = .finite (100 * 2 ^ 46) (-46) := by decide

theorem ofNat_zero : Double.ofNat 0 = .finite 0 0 := by decide

theorem clusteredDocsValue_zero {ρ : Type} (env : Env ρ) (e : ℤ) :
    clusteredDocsValue env (.finite 0 e) = "0.0%" := by
  unfold clusteredDocsValue
  rw [ofNat_hundred]
  have hmul : Double.mul (.finite (100 * 2 ^ 46) (-46)) (.finite 0 e) = .finite 0 0 := by
    simp [Double.mul, Double.round]
  rw [hmul, toFixed_one _ 0 0 (by decide)]
  decide

theorem clusteredDocsRatio_spec (c n : Nat) (hc : 0 < c) (hcn : c ≤ n) (hn : n < 2 ^ 53) :
    ∃ m e, clusteredDocsRatio c n = .finite m e ∧
      |(m : ℚ) * 2 ^ e - (c : ℚ) / n| ≤ (c : ℚ) / n * 2 ^ (-53 : ℤ) := by
  obtain ⟨mc, ec, hceq, hmc, hcval⟩ := ofNat_exact c hc (by omega)
  obtain ⟨mn, en, hneq, hmn, hnval⟩ := ofNat_exact n (by omega) hn
  have h2ne : (2 : ℚ) ≠ 0 := by norm_num
  have hnQ : (0 : ℚ) < n := by exact_mod_cast (by omega : 0 < n)
  have hcQ : (1 : ℚ) ≤ c := by exact_mod_cast hc
  have hcnQ : (c : ℚ) ≤ n := by exact_mod_cast hcn
  have hnltQ : (n : ℚ) < 2 ^ 53 := by exact_mod_cast hn
  have hv : (mc : ℚ) / mn * 2 ^ (ec - en) = (c : ℚ) / n := by
    rw [← hcval, ← hnval, zpow_sub₀ h2ne]
    have : (mn : ℚ) ≠ 0 := by exact_mod_cast hmn.ne'
    field_simp
  have hlo : (2 : ℚ) ^ (-1022 : ℤ) ≤ (mc : ℚ) / mn * 2 ^ (ec - en) := by
    rw [hv]
    have h1 : (2 : ℚ) ^ (-1022 : ℤ) ≤ 2 ^ (-53 : ℤ) :=
      zpow_le_zpow_right₀ (by norm_num) (by norm_num)
    have h2 : (2 : ℚ) ^ (-53 : ℤ) ≤ (c : ℚ) / n := by
      rw [zpow_neg, le_div_iff₀ hnQ]
      have : ((2 : ℚ) ^ (53 : ℤ))⁻¹ * n ≤ 1 := by
        rw [inv_mul_le_iff₀ (by positivity)]
        have : (2 : ℚ) ^ (53 : ℤ) = 2 ^ 53 := by norm_cast
        rw [this]; linarith
      linarith
    exact h1.trans h2
  have hhi : (mc : ℚ) / mn * 2 ^ (ec - en) < (2 : ℚ) ^ (1023 : ℤ) := by
    rw [hv]
    have h1 : (c : ℚ) / n ≤ 1 := (div_le_one hnQ).mpr hcnQ
    have h2 : (1 : ℚ) < 2 ^ (1023 : ℤ) := by
      have := zpow_lt_zpow_right₀ (by norm_num : (1 : ℚ) < 2) (by norm_num : (0 : ℤ) < 1023)
      simpa using this
    linarith
  obtain ⟨m, e, hround, herr⟩ := round_spec mc mn (ec - en) hmc hmn hlo hhi
  refine ⟨m, e, ?_, by rwa [hv] at herr⟩
  unfold clusteredDocsRatio
  rw [if_neg (by omega), hceq, hneq]
  simp only [Double.div, hmn.ne', if_false]
  exact hround

theorem percent_spec (m : Nat) (e : ℤ) (hm : 0 < m)
    (hlo : (2 : ℚ) ^ (-60 : ℤ) ≤ (m : ℚ) * 2 ^ e) (hhi : (m : ℚ) * 2 ^ e ≤ 2) :
    ∃ m' e', Double.mul (Double.ofNat 100) (.finite m e) = .finite m' e' ∧
      |(m' : ℚ) * 2 ^ e' - 100 * ((m : ℚ) * 2 ^ e)| ≤
        100 * ((m : ℚ) * 2 ^ e) * 2 ^ (-53 : ℤ) := by
  have h2ne : (2 : ℚ) ≠ 0 := by norm_num
  have hv : ((100 * 2 ^ 46 * m : ℕ) : ℚ) / (1 : ℕ) * 2 ^ (-46 + e) =
      100 * ((m : ℚ) * 2 ^ e) := by
    rw [zpow_add₀ h2ne]
    push_cast
    have : (2 : ℚ) ^ (-46 : ℤ) = (2 ^ 46)⁻¹ := by
      rw [zpow_neg]; norm_cast
    rw [this]
    field_simp
    ring
  have hlo' : (2 : ℚ) ^ (-1022 : ℤ) ≤ ((100 * 2 ^ 46 * m : ℕ) : ℚ) / (1 : ℕ) * 2 ^ (-46 + e) := by
    rw [hv]
    have h1 : (2 : ℚ) ^ (-1022 : ℤ) ≤ 2 ^ (-60 : ℤ) :=
      zpow_le_zpow_right₀ (by norm_num) (by norm_num)
    have h3 : (0 : ℚ) ≤ 2 ^ (-60 : ℤ) := by positivity
    linarith
  have hhi' : ((100 * 2 ^ 46 * m : ℕ) : ℚ) / (1 : ℕ) * 2 ^ (-46 + e) < (2 : ℚ) ^ (1023 : ℤ) := by
    rw [hv]
    have h2 : (200 : ℚ) < 2 ^ (1023 : ℤ) := by
      have := zpow_lt_zpow_right₀ (by norm_num : (1 : ℚ) < 2) (by norm_num : (8 : ℤ) < 1023)
      have h8 : (2 : ℚ) ^ (8 : ℤ) = 256 := by norm_num
      linarith
    linarith
  obtain ⟨m', e', hround, herr⟩ :=
    round_spec (100 * 2 ^ 46 * m) 1 (-46 + e) (by positivity) (by norm_num) hlo' hhi'
  refine ⟨m', e', ?_, by rwa [hv] at herr⟩
  rw [ofNat_hundred]
  simp only [Double.mul]
  exact hround

theorem clusteredDocsRatio_zero (n : Nat) (hn : n < 2 ^ 53) :
    clusteredDocsRatio 0 n = .finite 0 0 := by
  unfold clusteredDocsRatio
  by_cases h0 : n = 0
  · simp [h0, ofNat_zero]
  · obtain ⟨mn, en, hneq, hmn, -⟩ := ofNat_exact n (by omega) hn
    rw [if_neg h0, ofNat_zero, hneq]
    simp [Double.div, hmn.ne', Double.round]

theorem percentage_near (c n k : Nat) (r x : ℚ) (hc : 0 < c) (hcn : c ≤ n) (hn : n < 2 ^ 32)
    (hr : |r - (c : ℚ) / n| ≤ (c : ℚ) / n * 2 ^ (-53 : ℤ))
    (hx : |x - 100 * r| ≤ 100 * r * 2 ^ (-53 : ℤ))
    (hk1 : (k : ℚ) ≤ 10 * x + 1 / 2) (hk2 : 10 * x + 1 / 2 < (k : ℚ) + 1) :
    2 * |(k : ℤ) * n - 1000 * c| ≤ n := by
  have hnpos : 0 < n := by omega
  have hnQ : (0 : ℚ) < n := by exact_mod_cast hnpos
  have hcQ : (0 : ℚ) < c := by exact_mod_cast hc
  have hcnQ : (c : ℚ) ≤ n := by exact_mod_cast hcn
  have hnlt : (n : ℚ) < 2 ^ 32 := by exact_mod_cast hn
  have hu : (2 : ℚ) ^ (-53 : ℤ) = 1 / 9007199254740992 := by
    rw [zpow_neg]; norm_num
  rw [hu] at hr hx
  have hv0 : (0 : ℚ) < (c : ℚ) / n := by positivity
  have hv1 : (c : ℚ) / n ≤ 1 := (div_le_one hnQ).mpr hcnQ
  obtain ⟨hr1, hr2⟩ := abs_le.mp hr
  obtain ⟨hx1, hx2⟩ := abs_le.mp hx
  have hinv : (1 : ℚ) / 8589934592 < 1 / (2 * n) := by
    apply one_div_lt_one_div_of_lt (by positivity)
    have h32 : (2 : ℚ) ^ 32 = 4294967296 := by norm_num
    rw [h32] at hnlt
    linarith
  have hmul : ((c : ℚ) / n) * n = c := by field_simp
  by_contra hcon
  push_neg at hcon
  have hcon' : (n : ℤ) + 1 ≤ 2 * |(k : ℤ) * n - 1000 * c| := by omega
  rcases le_or_lt 0 ((k : ℤ) * n - 1000 * c) with hs | hs
  · rw [abs_of_nonneg hs] at hcon'
    have hQ : (n : ℚ) + 1 ≤ 2 * ((k : ℚ) * n - 1000 * c) := by exact_mod_cast hcon'
    have hdiv : (1 : ℚ) / 2 + 1 / (2 * n) ≤ (k : ℚ) - 1000 * ((c : ℚ) / n) := by
      have h1 : (1 : ℚ) / 2 + 1 / (2 * n) = ((n : ℚ) + 1) / (2 * n) := by
        field_simp
      have h2 : (k : ℚ) - 1000 * ((c : ℚ) / n) = (2 * ((k : ℚ) * n - 1000 * c)) / (2 * n) := by
        field_simp
        ring
      rw [h1, h2]
      exact div_le_div_of_nonneg_right hQ (by positivity)
    generalize 1 / (2 * (n : ℚ)) = δ at hinv hdiv
    linarith
  · rw [abs_of_neg hs] at hcon'
    have hQ : (n : ℚ) + 1 ≤ 2 * (-((k : ℚ) * n - 1000 * c)) := by exact_mod_cast hcon'
    have hdiv : (1 : ℚ) / 2 + 1 / (2 * n) ≤ 1000 * ((c : ℚ) / n) - (k : ℚ) := by
      have h1 : (1 : ℚ) / 2 + 1 / (2 * n) = ((n : ℚ) + 1) / (2 * n) := by
        field_simp
      have h2 : 1000 * ((c : ℚ) / n) - (k : ℚ) =
          (2 * (-((k : ℚ) * n - 1000 * c))) / (2 * n) := by
        field_simp
        ring
      rw [h1, h2]
      exact div_le_div_of_nonneg_right hQ (by positivity)
    generalize 1 / (2 * (n : ℚ)) = δ at hinv hdiv
    linarith

theorem clusteredDocsValue_near {ρ : Type} (env : Env ρ) (c n : Nat) (hc : 0 < c)
    (hcn : c ≤ n) (hn : n < 2 ^ 32) :
    ∃ k : Nat,
      clusteredDocsValue env (clusteredDocsRatio c n) =
        toString (k / 10) ++ "." ++ toString (k % 10) ++ "%" ∧
      2 * |(k : ℤ) * n - 1000 * c| ≤ n := by
  have hn53 : n < 2 ^ 53 := lt_trans hn (by norm_num)
  obtain ⟨m, e, hratio, herr⟩ := clusteredDocsRatio_spec c n hc hcn hn53
  have hnQ : (0 : ℚ) < n := by exact_mod_cast (by omega : 0 < n)
  have hcQ : (1 : ℚ) ≤ c := by exact_mod_cast hc
  have hcnQ : (c : ℚ) ≤ n := by exact_mod_cast hcn
  have hnlt : (n : ℚ) < 4294967296 := by exact_mod_cast hn
  have hu : (2 : ℚ) ^ (-53 : ℤ) = 1 / 9007199254740992 := by
    rw [zpow_neg]; norm_num
  have h60 : (2 : ℚ) ^ (-60 : ℤ) = 1 / 1152921504606846976 := by
    rw [zpow_neg]; norm_num
  have hv1 : (c : ℚ) / n ≤ 1 := (div_le_one hnQ).mpr hcnQ
  have hv0 : (1 : ℚ) / 4294967296 < (c : ℚ) / n := by
    rw [div_lt_div_iff₀ (by norm_num) hnQ]
    linarith
  obtain ⟨hr1, hr2⟩ := abs_le.mp herr
  rw [hu] at hr1 hr2
  have hlo : (2 : ℚ) ^ (-60 : ℤ) ≤ (m : ℚ) * 2 ^ e := by
    rw [h60]; linarith
  have hhi : (m : ℚ) * 2 ^ e ≤ 2 := by linarith
  have hm : 0 < m := by
    rcases Nat.eq_zero_or_pos m with h0 | h0
    · rw [h0, h60] at hlo
      norm_num at hlo
    · exact h0
  obtain ⟨m', e', hmul, herr'⟩ := percent_spec m e hm hlo hhi
  obtain ⟨hx1, hx2⟩ := abs_le.mp herr'
  rw [hu] at hx1 hx2
  have hge : geTenPow21 m' e' = false := by
    apply geTenPow21_false
    have : (10 : ℚ) ^ 21 = 1000000000000000000000 := by norm_num
    rw [this]
    linarith
  refine ⟨nearestScaled m' e' 1, ?_, ?_⟩
  · unfold clusteredDocsValue
    rw [hratio, hmul, toFixed_one _ _ _ hge]
  · exact percentage_near c n _ _ _ hc hcn hn herr herr'
      (nearestScaled_spec m' e').1 (nearestScaled_spec m' e').2

theorem toString_digit_length (d : Nat) (hd : d < 10) : (toString d).length = 1 := by
  rw [toString_eq_mk, toDigits_lt_ten d hd]
  rfl

theorem clusteredDocsCount_le (st : Stores) :
    clusteredDocsCount st ≤ st.searchResultStore.searchResult.documents.length :=
  List.length_filter_le _ _

theorem clusteredDocsValue_tie {ρ : Type} (env : Env ρ) :
    clusteredDocsValue env (clusteredDocsRatio 3 2000) = "0.1%" ∧
    clusteredDocsValue env (clusteredDocsRatio 1 2000) = "0.1%" := by
  have hr3 : clusteredDocsRatio 3 2000 = .finite 6917529027641082 (-62) := by decide
  have hr1 : clusteredDocsRatio 1 2000 = .finite 4611686018427388 (-63) := by decide
  have hm3 : Double.mul (Double.ofNat 100) (.finite 6917529027641082 (-62)) =
      .finite 5404319552844595 (-55) := by
    rw [ofNat_hundred]
    set_option maxRecDepth 4096 in decide
  have hm1 : Double.mul (Double.ofNat 100) (.finite 4611686018427388 (-63)) =
      .finite 7205759403792794 (-57) := by
    rw [ofNat_hundred]
    set_option maxRecDepth 4096 in decide
  unfold clusteredDocsValue
  rw [hr3, hr1, hm3, hm1, toFixed_one _ _ _ (by decide), toFixed_one _ _ _ (by decide)]
  exact ⟨by decide, by decide⟩

/-- C3: for `C` clustered documents out of `N`, with `C ≤ N` and `N` a length
(below `2 ^ 32`), the value of the "clustered-docs" stat is the decimal
representation of an integer number of tenths `k / 10`, written with exactly one
digit after the decimal point and followed by "%", and `k / 10` is a nearest
tenth to `100 * C / N` (at most one twentieth away); this covers the ratio 0 of
`N = 0`.  Where two tenths are equally near, the binary64 value of the product
decides between them.  For `C = 40` and `N = 50` the value is "80.0%", for the
ratio 0 it is "0.0%".  `ResultStats` shows this value for the counts of the
stores. -/
theorem clustered_docs_percentage {ρ : Type} (env : Env ρ) (st : Stores) (c n : Nat)
    (hcn : c ≤ n) (hn : n < 2 ^ 32) :
    (∃ k : Nat,
      clusteredDocsValue env (clusteredDocsRatio c n) =
        toString (k / 10) ++ "." ++ toString (k % 10) ++ "%" ∧
      (toString (k % 10)).length = 1 ∧
      2 * |(k : ℤ) * n - 1000 * c| ≤ n ∧
      (n = 0 → k = 0)) ∧
    clusteredDocsValue env (clusteredDocsRatio 40 50) = "80.0%" ∧
    clusteredDocsValue env (clusteredDocsRatio 0 0) = "0.0%" ∧
    statValue "clustered-docs" (resultStats env st) =
      some (.str (clusteredDocsValue env
        (clusteredDocsRatio (clusteredDocsCount st)
          st.searchResultStore.searchResult.documents.length))) ∧
    clusteredDocsCount st ≤ st.searchResultStore.searchResult.documents.length := by
  have hzero : ∀ n' : Nat, n' < 2 ^ 53 →
      clusteredDocsValue env (clusteredDocsRatio 0 n') = "0.0%" := by
    intro n' h
    rw [clusteredDocsRatio_zero n' h, clusteredDocsValue_zero]
  refine ⟨?_, ?_, hzero 0 (by norm_num), ?_, clusteredDocsCount_le st⟩
  · rcases Nat.eq_zero_or_pos c with hc | hc
    · subst hc
      refine ⟨0, ?_, by decide, by simp, fun _ => rfl⟩
      rw [hzero n (lt_trans hn (by norm_num))]
      decide
    · obtain ⟨k, hk1, hk2⟩ := clusteredDocsValue_near env c n hc hcn hn
      exact ⟨k, hk1, toString_digit_length _ (Nat.mod_lt _ (by norm_num)), hk2,
        fun h0 => by omega⟩
  · have hratio : clusteredDocsRatio 40 50 = .finite 7205759403792794 (-53) := by decide
    have hmul : Double.mul (Double.ofNat 100) (.finite 7205759403792794 (-53)) =
        .finite 5629499534213120 (-46) := by
      rw [ofNat_hundred]
      set_option maxRecDepth 4096 in decide
    unfold clusteredDocsValue
    rw [hratio, hmul, toFixed_one _ _ _ (by decide)]
    decide
  · simp [resultStats, statValue, List.find?, getClusteredDocsRatio]

/-- Witness for C3: one document in three is clustered. -/
theorem clustered_docs_percentage_witness :
    1 ≤ 3 ∧ 3 < 2 ^ 32 ∧
    ∃ k : Nat,
      clusteredDocsValue demoEnv (clusteredDocsRatio 1 3) =
        toString (k / 10) ++ "." ++ toString (k % 10) ++ "%" ∧
      2 * |(k : ℤ) * (3 : ℕ) - 1000 * (1 : ℕ)| ≤ (3 : ℕ) :=
  ⟨by decide, by decide,
    (clustered_docs_percentage demoEnv resultsStores 1 3 (by decide) (by decide)).1.imp
      (fun _ h => ⟨h.1, h.2.2.1⟩)⟩

end Workbench
